import Mathlib

/-!
# Network polling and response decoding of the tram tracker

A shallow embedding of `src/src/network.cpp` (with the `Departure` record of
`src/Include/network.h` and the `GpsLocation` record of `src/include/gps.h`).

* The file-level statics `departureBuffer`, `departureCount`, `lastApiPoll` and
  `wifiConnected` become the fields of `NetState`; every function of the
  translation unit takes the state and returns the new one.
* `char` arrays are total maps from their index range to byte values, a
  `const char*` is the list of bytes in front of its terminator.
* `unsigned long` is 32 bits wide on the ESP32; values are naturals and the
  subtraction is taken modulo `2 ^ 32`.
* What a tick reads from its surroundings (Wi-Fi status, `millis()`, the GPS
  fix, the outcome of `connect` and the bytes the read loop collected) is the
  `TickInput` of that tick.
* ArduinoJson is a library outside the sources.  A payload is described by what
  the library's reader makes of it (`JsonText`); the pool budget, which the
  source fixes through `CAPACITY`, is checked by `deserializeJson`.  The reader
  itself is modelled by `readJsonText`, which turns a body text into a `JsonText`.
-/

namespace TramTracker

/-! ## Data model -/

/-- Maximum number of departures stored in memory (`MAX_DEPARTURES`). -/
abbrev MAX_DEPARTURES : Nat := 8

/-- Value of `sizeof(Departure::line)`, from `char line[8]`. -/
abbrev SIZEOF_LINE : Nat := 8

/-- Value of `sizeof(Departure::destination)`, from `char destination[40]`. -/
abbrev SIZEOF_DESTINATION : Nat := 40

/-- Frequency of API polling in milliseconds (`30UL * 1000UL`). -/
def API_POLL_INTERVAL_MS : Nat := 30 * 1000

/-- The constant `API_USE_TLS`. -/
def API_USE_TLS : Bool := true

/-- Number of values of an `unsigned long` on the target (32 bits). -/
def ULONG_MOD : Nat := 2 ^ 32

/-- A single tram departure (`struct Departure`). -/
structure Departure where
  line : Fin SIZEOF_LINE → Nat
  destination : Fin SIZEOF_DESTINATION → Nat
  etaMinutes : Nat

/-- The last known GPS location (`struct GpsLocation`). -/
structure GpsLocation where
  latitude : Float
  longitude : Float
  valid : Bool

/-- The statics of `network.cpp`. -/
structure NetState where
  departureBuffer : Fin MAX_DEPARTURES → Departure
  departureCount : Nat
  lastApiPoll : Nat
  wifiConnected : Bool

/-! ## C strings -/

/-- The bytes a `const char*` denotes: everything in front of the first NUL. -/
def cstr (bytes : List Nat) : List Nat :=
  bytes.takeWhile (fun b => b != 0)

/-- The C string held in a `char` array: its bytes in front of the first NUL. -/
def arrayString {n : Nat} (a : Fin n → Nat) : List Nat :=
  cstr (List.ofFn a)

/-- The call `strncpy(dest, src, n)`: the first `n` bytes of `dest` receive the
bytes of the C string `src`, padded with NUL once `src` is exhausted; the
bytes of `dest` from `n` on are kept. -/
def strncpy {m : Nat} (dest : Fin m → Nat) (src : List Nat) (n : Nat) : Fin m → Nat :=
  fun j => if j.val < n then (cstr src).getD j.val 0 else dest j

/-- Byte values of an ASCII literal. -/
def ascii (s : String) : List Nat :=
  s.toList.map Char.toNat

/-! ## ArduinoJson values and the accessors the source uses -/

/-- Modelled from the spec: the value type of ArduinoJson is not in the sources;
a JSON value as the document holds it ("JSON array, each element an object with
optional fields").  A string is held as a C string, `float` stands for a number
that is not an integer literal. -/
inductive JsonVariant where
  | null : JsonVariant
  | bool (b : Bool) : JsonVariant
  | int (n : Int) : JsonVariant
  | float (literal : String) : JsonVariant
  | str (bytes : List Nat) : JsonVariant
  | array (elements : List JsonVariant) : JsonVariant
  | object (members : List (String × JsonVariant)) : JsonVariant

/-- Modelled from the spec: member lookup of ArduinoJson is not in the sources;
the value stored under `key`, null when the key is "absent". -/
def lookupMember (key : String) : List (String × JsonVariant) → JsonVariant
  | [] => JsonVariant.null
  | (k, v) :: rest => if k = key then v else lookupMember key rest

/-- Modelled from the spec: `JsonObject::operator[]` of ArduinoJson is not in the
sources; the expression `obj[key]` for an array element bound to a `JsonObject`.
An element that is not an object has every field "absent". -/
def getMember (obj : JsonVariant) (key : String) : JsonVariant :=
  match obj with
  | JsonVariant.object members => lookupMember key members
  | _ => JsonVariant.null

/-- Modelled from the spec: `operator|` of ArduinoJson at type `const char*` is
not in the sources; "string field, default empty string if absent or wrong
type": the string of a string value, the default for any other value. -/
def stringOr (v : JsonVariant) (dflt : List Nat) : List Nat :=
  match v with
  | JsonVariant.str bytes => bytes
  | _ => dflt

/-- Modelled from the spec: `operator|` of ArduinoJson at type `int` is not in
the sources; "integer field, default -1 (sentinel) if absent or wrong type": the
integer of an integer value that a 32-bit `int` can hold, the default for any
other value. -/
def intOr (v : JsonVariant) (dflt : Int) : Int :=
  match v with
  | JsonVariant.int n => if -(2 ^ 31) ≤ n ∧ n < 2 ^ 31 then n else dflt
  | _ => dflt

/-- Modelled from the spec: `as<JsonArray>()` of ArduinoJson is not in the
sources; "treat body as a JSON array of objects": the elements of an array root,
no element for any other root. -/
def asArray (doc : JsonVariant) : List JsonVariant :=
  match doc with
  | JsonVariant.array elements => elements
  | _ => []

/-! ## The document budget -/

/-- Modelled from the spec: the ArduinoJson constant `sizeof(VariantSlot)` is
not in the sources; one slot of the document pool takes 16 bytes on the 32-bit
target, which makes the budget of the source one "sized for at most 16
candidate entries" of three members each. -/
def SIZEOF_VARIANT_SLOT : Nat := 16

/-- Modelled from the spec: the ArduinoJson macro `JSON_ARRAY_SIZE(n)` is not in
the sources; it is the pool size of an array of `n` elements, one slot each. -/
def JSON_ARRAY_SIZE (n : Nat) : Nat := n * SIZEOF_VARIANT_SLOT

/-- Modelled from the spec: the ArduinoJson macro `JSON_OBJECT_SIZE(n)` is not in
the sources; it is the pool size of an object of `n` members, one slot each. -/
def JSON_OBJECT_SIZE (n : Nat) : Nat := n * SIZEOF_VARIANT_SLOT

/-- The constant `CAPACITY` of `parseDeparturesFromJson`. -/
def CAPACITY : Nat := JSON_ARRAY_SIZE 16 + 16 * JSON_OBJECT_SIZE 3 + 512

mutual
/-- Number of pool slots of a value: one per array element and per member. -/
def slotCount : JsonVariant → Nat
  | JsonVariant.array elements => slotCountList elements
  | JsonVariant.object members => slotCountMembers members
  | _ => 0
/-- Slots of the elements of an array. -/
def slotCountList : List JsonVariant → Nat
  | [] => 0
  | v :: rest => 1 + slotCount v + slotCountList rest
/-- Slots of the members of an object. -/
def slotCountMembers : List (String × JsonVariant) → Nat
  | [] => 0
  | (_, v) :: rest => 1 + slotCount v + slotCountMembers rest
end

mutual
/-- Bytes of the strings copied into the pool: keys and string values, each
with its terminator. -/
def stringBytes : JsonVariant → Nat
  | JsonVariant.str bytes => (cstr bytes).length + 1
  | JsonVariant.array elements => stringBytesList elements
  | JsonVariant.object members => stringBytesMembers members
  | _ => 0
/-- String bytes of the elements of an array. -/
def stringBytesList : List JsonVariant → Nat
  | [] => 0
  | v :: rest => stringBytes v + stringBytesList rest
/-- String bytes of the members of an object. -/
def stringBytesMembers : List (String × JsonVariant) → Nat
  | [] => 0
  | (k, v) :: rest => k.utf8ByteSize + 1 + stringBytes v + stringBytesMembers rest
end

/-- Modelled from the spec: the pool accounting of ArduinoJson is not in the
sources; a document takes its slots plus the bytes of its copied strings, the
rule behind the `JSON_ARRAY_SIZE(..) + n * JSON_OBJECT_SIZE(..) + bytes` shape of
`CAPACITY`. -/
def memoryUsage (v : JsonVariant) : Nat :=
  slotCount v * SIZEOF_VARIANT_SLOT + stringBytes v

/-- Modelled from the spec: `DeserializationError` of ArduinoJson is not in the
sources; its codes other than `Ok`, each one a "parse failure". -/
inductive DeserializationError where
  | EmptyInput
  | IncompleteInput
  | InvalidInput
  | NoMemory
  | TooDeep
  deriving DecidableEq, Repr

/-- Modelled from the spec: the JSON reader of ArduinoJson is not in the sources;
a payload is given by what the reader makes of it: it stops with an error code
("malformed JSON"), or it reads the text as a value. -/
inductive JsonText where
  | rejected (code : DeserializationError) : JsonText
  | value (v : JsonVariant) : JsonText

/-- Modelled from the spec: `deserializeJson` of ArduinoJson is not in the
sources; "parse with a bounded-size document budget": a payload the reader
rejects gives its error, a value that does not fit the pool of `capacity` bytes
gives `NoMemory`, any other value becomes the document. -/
def deserializeJson (capacity : Nat) (json : JsonText) :
    Except DeserializationError JsonVariant :=
  match json with
  | JsonText.rejected code => Except.error code
  | JsonText.value v =>
    if memoryUsage v ≤ capacity then Except.ok v else Except.error DeserializationError.NoMemory

/-! ## Internal helpers of `network.cpp` -/

/-- The body of the loop of `clearDepartures` for one slot. -/
def clearSlot (d : Departure) : Departure :=
  { line := Function.update d.line ⟨0, by decide⟩ 0
    destination := Function.update d.destination ⟨0, by decide⟩ 0
    etaMinutes := 0 }

/-- Clear the internal departure list (`clearDepartures`). -/
def clearDepartures (st : NetState) : NetState :=
  { st with
    departureBuffer :=
      (List.finRange MAX_DEPARTURES).foldl
        (fun buf i => Function.update buf i (clearSlot (buf i))) st.departureBuffer
    departureCount := 0 }

/-- The three stores into `departureBuffer[idx]` of the loop body of
`parseDeparturesFromJson`. -/
def storeDeparture (d : Departure) (lineField destField : List Nat) (etaField : Int) :
    Departure :=
  { line :=
      Function.update (strncpy d.line lineField (SIZEOF_LINE - 1))
        ⟨SIZEOF_LINE - 1, by decide⟩ 0
    destination :=
      Function.update (strncpy d.destination destField (SIZEOF_DESTINATION - 1))
        ⟨SIZEOF_DESTINATION - 1, by decide⟩ 0
    etaMinutes := etaField.toNat % 256 }

/-- The range-based `for` of `parseDeparturesFromJson`, from position `idx`. -/
def parseLoop : List JsonVariant → Nat → (Fin MAX_DEPARTURES → Departure) →
    Nat × (Fin MAX_DEPARTURES → Departure)
  | [], idx, buf => (idx, buf)
  | obj :: rest, idx, buf =>
    if h : idx ≥ MAX_DEPARTURES then
      -- break
      (idx, buf)
    else
      let lineField := stringOr (getMember obj "line") []
      let destField := stringOr (getMember obj "destination") []
      let etaField := intOr (getMember obj "eta_min") (-1)
      if etaField < 0 ∨ etaField > 255 then
        -- continue
        parseLoop rest idx buf
      else
        parseLoop rest (idx + 1)
          (Function.update buf ⟨idx, Nat.lt_of_not_le h⟩
            (storeDeparture (buf ⟨idx, Nat.lt_of_not_le h⟩) lineField destField etaField))

/-- Parse departures from a JSON payload (`parseDeparturesFromJson`). -/
def parseDeparturesFromJson (st : NetState) (json : JsonText) : NetState :=
  let st := clearDepartures st
  match deserializeJson CAPACITY json with
  | Except.error _ => st
  | Except.ok doc =>
    let r := parseLoop (asArray doc) 0 st.departureBuffer
    { st with departureBuffer := r.2, departureCount := r.1 }

/-- The header delimiter `"\r\n\r\n"`. -/
def HEADER_END : List Nat := [13, 10, 13, 10]

/-- Whether `pat` is read at the start of `s`. -/
def matchesAt : List Nat → List Nat → Bool
  | [], _ => true
  | _ :: _, [] => false
  | p :: ps, c :: cs => p == c && matchesAt ps cs

/-- Search of `String::indexOf` from offset `pos`: position of the first
occurrence of `pat`, `-1` when there is none (also in an empty text). -/
def indexOfFrom (pat : List Nat) : List Nat → Nat → Int
  | [], _ => -1
  | c :: cs, pos => if matchesAt pat (c :: cs) then (pos : Int) else indexOfFrom pat cs (pos + 1)

/-- The call `s.indexOf(pat)`. -/
def indexOf (s pat : List Nat) : Int :=
  indexOfFrom pat s 0

/-- The call `s.substring(left)`: the text from `left` to the end. -/
def substring (s : List Nat) (left : Int) : List Nat :=
  s.drop left.toNat

/-- Perform a single HTTPS GET request (`performHttpsGet`).  `connectOk` is the
result of `secureClient.connect`, `received` the text the read loop has
appended to `responseBody` when it ends.  Returns the result flag and the
final `responseBody`. -/
def performHttpsGet (connectOk : Bool) (received : List Nat) : Bool × List Nat :=
  let responseBody : List Nat := []
  if !API_USE_TLS then
    (false, responseBody)
  else if !connectOk then
    (false, responseBody)
  else
    let responseBody := responseBody ++ received
    let headerEndIndex := indexOf responseBody HEADER_END
    let responseBody :=
      if headerEndIndex ≥ 0 then substring responseBody (headerEndIndex + 4) else responseBody
    (!responseBody.isEmpty, responseBody)

/-! ## Public interface -/

/-- What one call of `networkLoop` reads from outside the translation unit. -/
structure TickInput where
  wifiStatusConnected : Bool
  millis : Nat
  location : GpsLocation
  connectOk : Bool
  received : List Nat

/-- The statement at which a call of `networkLoop` ends. -/
inductive TickExit where
  | offline
  | notDue
  | invalidLocation
  | fetchFailed
  | parsed
  deriving DecidableEq, Repr

/-- Unsigned subtraction of two `unsigned long` values. -/
def subUL (a b : Nat) : Nat :=
  (a % ULONG_MOD + ULONG_MOD - b % ULONG_MOD) % ULONG_MOD

/-- Initialize the polling state (`networkInit`). -/
def networkInit (st : NetState) : NetState :=
  let st := clearDepartures st
  { st with wifiConnected := false, lastApiPoll := 0 }

/-- One call of `networkLoop`.  `readJson` is the reading the JSON library makes
of a response body. -/
def networkLoop (readJson : List Nat → JsonText) (st : NetState) (inp : TickInput) :
    NetState × TickExit :=
  let st := { st with wifiConnected := inp.wifiStatusConnected }
  let now := inp.millis % ULONG_MOD
  if !st.wifiConnected then
    (st, TickExit.offline)
  else if subUL now st.lastApiPoll < API_POLL_INTERVAL_MS then
    (st, TickExit.notDue)
  else
    let st := { st with lastApiPoll := now }
    let loc := inp.location
    if !loc.valid then
      (clearDepartures st, TickExit.invalidLocation)
    else
      let r := performHttpsGet inp.connectOk inp.received
      if !r.1 then
        (clearDepartures st, TickExit.fetchFailed)
      else
        (parseDeparturesFromJson st (readJson r.2), TickExit.parsed)

/-- The count `networkGetDepartures` writes to its output parameter. -/
def networkGetDepartures (st : NetState) : (Fin MAX_DEPARTURES → Departure) × Nat :=
  (st.departureBuffer, st.departureCount)

/-- The flag `networkIsOnline` returns. -/
def networkIsOnline (st : NetState) : Bool :=
  st.wifiConnected

/-! ## The JSON reader

The reader of ArduinoJson 6 behind `deserializeJson`, as far as it decides what a
payload text is read as: "treat body as a JSON array of objects", where "any
parse failure" gives an error code.  The pool budget is left to
`deserializeJson`. -/

/-- Modelled from the spec: the JSON reader of ArduinoJson is not in the sources;
outcome of reading a piece of the text: the value read and the text that
follows it, or the error code. -/
abbrev Reading (α : Type) := Except DeserializationError (α × List Nat)

/-- The byte `]`. -/
def CLOSE_BRACKET : Nat := 93

/-- Modelled from the spec: the JSON reader of ArduinoJson is not in the sources;
the blanks the reader skips: space, tab, carriage return, line feed. -/
def isSpace (c : Nat) : Bool :=
  c == 32 || c == 9 || c == 13 || c == 10

/-- Modelled from the spec: the JSON reader of ArduinoJson is not in the sources;
a decimal digit. -/
def isDigit (c : Nat) : Bool :=
  decide (48 ≤ c ∧ c ≤ 57)

/-- Modelled from the spec: the JSON reader of ArduinoJson is not in the sources;
the bytes a number is collected from: digits, `+`, `-`, `.`, `e`, `E`. -/
def canBeInNumber (c : Nat) : Bool :=
  isDigit c || c == 43 || c == 45 || c == 46 || c == 101 || c == 69

/-- Modelled from the spec: the JSON reader of ArduinoJson is not in the sources;
the bytes of a key written without quotes: digits, `_` to `z`, `A` to `Z`. -/
def canBeInNonQuotedString (c : Nat) : Bool :=
  decide (48 ≤ c ∧ c ≤ 57) || decide (95 ≤ c ∧ c ≤ 122) || decide (65 ≤ c ∧ c ≤ 90)

/-- Modelled from the spec: the JSON reader of ArduinoJson is not in the sources;
skip blanks.  The end of the text is `EmptyInput` while nothing but blanks
has been seen and `IncompleteInput` afterwards. -/
def skipSpacesAndComments (foundSomething : Bool) :
    List Nat → Except DeserializationError (List Nat)
  | [] =>
    Except.error
      (if foundSomething then DeserializationError.IncompleteInput
       else DeserializationError.EmptyInput)
  | c :: cs =>
    if isSpace c then skipSpacesAndComments foundSomething cs else Except.ok (c :: cs)

/-- Modelled from the spec: the JSON reader of ArduinoJson is not in the sources;
read the keyword `kw`. -/
def skipKeyword : List Nat → List Nat → Except DeserializationError (List Nat)
  | [], input => Except.ok input
  | _ :: _, [] => Except.error DeserializationError.IncompleteInput
  | k :: ks, c :: cs =>
    if k = c then skipKeyword ks cs else Except.error DeserializationError.InvalidInput

/-- Modelled from the spec: the JSON reader of ArduinoJson is not in the sources;
the byte an escape sequence stands for. -/
def unescapeChar (c : Nat) : Option Nat :=
  if c = 34 then some 34
  else if c = 47 then some 47
  else if c = 92 then some 92
  else if c = 98 then some 8
  else if c = 102 then some 12
  else if c = 110 then some 10
  else if c = 114 then some 13
  else if c = 116 then some 9
  else none

/-- Modelled from the spec: the JSON reader of ArduinoJson is not in the sources;
value of a hexadecimal digit. -/
def decodeHex (c : Nat) : Option Nat :=
  if 48 ≤ c ∧ c ≤ 57 then some (c - 48)
  else if 65 ≤ c ∧ c ≤ 70 then some (c - 55)
  else if 97 ≤ c ∧ c ≤ 102 then some (c - 87)
  else none

/-- Modelled from the spec: the JSON reader of ArduinoJson is not in the sources;
read `n` hexadecimal digits onto `acc`. -/
def parseHex : Nat → Nat → List Nat → Reading Nat
  | 0, acc, input => Except.ok (acc, input)
  | _ + 1, _, [] => Except.error DeserializationError.IncompleteInput
  | n + 1, acc, c :: cs =>
    match decodeHex c with
    | none => Except.error DeserializationError.InvalidInput
    | some d => parseHex n (acc * 16 + d) cs

/-- Modelled from the spec: the JSON reader of ArduinoJson is not in the sources;
one UTF-16 code unit added to the pending high surrogate `high`: the new
pending surrogate and the code point that is complete, if one is. -/
def utf16Append (high codeunit : Nat) : Nat × Option Nat :=
  if 0xD800 ≤ codeunit ∧ codeunit < 0xDC00 then (codeunit % 1024, none)
  else if 0xDC00 ≤ codeunit ∧ codeunit < 0xE000 then
    (high, some (0x10000 + (high * 1024 + codeunit % 1024)))
  else (high, some codeunit)

/-- Modelled from the spec: the JSON reader of ArduinoJson is not in the sources;
the UTF-8 bytes of a code point. -/
def utf8Encode (cp : Nat) : List Nat :=
  if cp < 0x80 then [cp]
  else if cp < 0x800 then [0xC0 + cp / 64, 0x80 + cp % 64]
  else if cp < 0x10000 then [0xE0 + cp / 4096, 0x80 + cp / 64 % 64, 0x80 + cp % 64]
  else [0xF0 + cp / 262144, 0x80 + cp / 4096 % 64, 0x80 + cp / 64 % 64, 0x80 + cp % 64]

/-- Modelled from the spec: the JSON reader of ArduinoJson is not in the sources;
read a quoted string up to its closing `stopChar`, which the opening quote
fixes.  `fuel` bounds the steps and is taken above the length of the text. -/
def parseQuotedString (stopChar : Nat) : Nat → Nat → List Nat → List Nat → Reading (List Nat)
  | 0, _, _, _ => Except.error DeserializationError.IncompleteInput
  | _ + 1, _, _, [] => Except.error DeserializationError.IncompleteInput
  | fuel + 1, high, acc, c :: cs =>
    if c = stopChar then Except.ok (acc, cs)
    else if c = 92 then
      match cs with
      | [] => Except.error DeserializationError.IncompleteInput
      | e :: es =>
        if e = 117 then
          match parseHex 4 0 es with
          | Except.error err => Except.error err
          | Except.ok (codeunit, rest) =>
            match utf16Append high codeunit with
            | (high2, some cp) => parseQuotedString stopChar fuel high2 (acc ++ utf8Encode cp) rest
            | (high2, none) => parseQuotedString stopChar fuel high2 acc rest
        else
          match unescapeChar e with
          | none => Except.error DeserializationError.InvalidInput
          | some u => parseQuotedString stopChar fuel high (acc ++ [u]) es
    else parseQuotedString stopChar fuel high (acc ++ [c]) cs

/-- Modelled from the spec: the JSON reader of ArduinoJson is not in the sources;
read a key: a quoted string, or the longest run of bytes a key without
quotes can hold. -/
def parseKey (input : List Nat) : Reading (List Nat) :=
  match input with
  | [] => Except.error DeserializationError.IncompleteInput
  | c :: cs =>
    if c = 34 ∨ c = 39 then parseQuotedString c (cs.length + 1) 0 [] cs
    else if canBeInNonQuotedString c then
      Except.ok ((c :: cs).takeWhile canBeInNonQuotedString,
        (c :: cs).dropWhile canBeInNonQuotedString)
    else Except.error DeserializationError.InvalidInput

/-- Modelled from the spec: the JSON reader of ArduinoJson is not in the sources;
the number bytes at the start of the text, at most `limit` of them, and
the text after them. -/
def numberSpan : Nat → List Nat → List Nat × List Nat
  | 0, input => ([], input)
  | _ + 1, [] => ([], [])
  | limit + 1, c :: cs =>
    if canBeInNumber c then ((c :: (numberSpan limit cs).1), (numberSpan limit cs).2)
    else ([], c :: cs)

/-- Modelled from the spec: the JSON reader of ArduinoJson is not in the sources;
the text without a leading sign. -/
def dropSign : List Nat → List Nat
  | [] => []
  | c :: cs => if c = 45 ∨ c = 43 then cs else c :: cs

/-- Modelled from the spec: the JSON reader of ArduinoJson is not in the sources;
the text without a leading fraction `.ddd`. -/
def dropFraction : List Nat → List Nat
  | [] => []
  | c :: cs => if c = 46 then cs.dropWhile isDigit else c :: cs

/-- Modelled from the spec: the JSON reader of ArduinoJson is not in the sources;
the text without a leading exponent `e`, sign and digits. -/
def dropExponent : List Nat → List Nat
  | [] => []
  | c :: cs => if c = 101 ∨ c = 69 then (dropSign cs).dropWhile isDigit else c :: cs

/-- Modelled from the spec: the JSON reader of ArduinoJson is not in the sources;
the value of the collected number bytes: an integer when the digits end the
bytes and fit 64 bits, a floating-point value when a fraction or an exponent
follows, nothing when the bytes are no number. -/
def parseNumber (buf : List Nat) : Option JsonVariant :=
  let negative := decide (buf.head? = some 45)
  let s := dropSign buf
  match s with
  | [] => none
  | c :: _ =>
    if !(isDigit c || c == 46) then none
    else
      let mantissa : Nat := (s.takeWhile isDigit).foldl (fun m d => m * 10 + (d - 48)) 0
      let rest := s.dropWhile isDigit
      if rest.isEmpty && negative && decide (mantissa ≤ 2 ^ 63) then
        some (JsonVariant.int (-(mantissa : Int)))
      else if rest.isEmpty && !negative && decide (mantissa < 2 ^ 64) then
        some (JsonVariant.int (mantissa : Int))
      else if (dropExponent (dropFraction rest)).isEmpty then
        some (JsonVariant.float (String.mk (buf.map Char.ofNat)))
      else none

/-- Modelled from the spec: the JSON reader of ArduinoJson is not in the sources;
store `v` under `key`: in the slot of the key when there is one, in a new
last slot otherwise. -/
def setMember (key : String) (v : JsonVariant) :
    List (String × JsonVariant) → List (String × JsonVariant)
  | [] => [(key, v)]
  | (k, old) :: rest => if k = key then (k, v) :: rest else (k, old) :: setMember key v rest

/-- Modelled from the spec: the JSON reader of ArduinoJson is not in the sources;
the key bytes as the key of a member. -/
def keyOf (bytes : List Nat) : String :=
  String.mk ((cstr bytes).map Char.ofNat)

/-- Modelled from the spec: the JSON reader of ArduinoJson is not in the sources;
depth of arrays and objects the reader follows
(`ARDUINOJSON_DEFAULT_NESTING_LIMIT`). -/
def NESTING_LIMIT : Nat := 10

mutual
/-- Modelled from the spec: the JSON reader of ArduinoJson is not in the sources;
read one value into a slot that holds `variant` (null for a new slot, the
stored value when an object repeats a key).  `fuel` bounds the values, arrays
and objects entered, each of which takes at least one byte of the text;
`readJsonText` starts it above twice the length of the text. -/
def parseVariant : Nat → Nat → JsonVariant → List Nat → Reading JsonVariant
  | 0, _, _, _ => Except.error DeserializationError.TooDeep
  | fuel + 1, nestingLimit, variant, input =>
    match skipSpacesAndComments true input with
    | Except.error err => Except.error err
    | Except.ok [] => Except.error DeserializationError.IncompleteInput
    | Except.ok (c :: cs) =>
      if c = 91 then
        if nestingLimit = 0 then Except.error DeserializationError.TooDeep
        else
          match skipSpacesAndComments true cs with
          | Except.error err => Except.error err
          | Except.ok [] => Except.error DeserializationError.IncompleteInput
          | Except.ok (d :: ds) =>
            if d = CLOSE_BRACKET then Except.ok (JsonVariant.array [], ds)
            else
              match parseArray fuel (nestingLimit - 1) [] (d :: ds) with
              | Except.error err => Except.error err
              | Except.ok (elements, rest) => Except.ok (JsonVariant.array elements, rest)
      else if c = 123 then
        if nestingLimit = 0 then Except.error DeserializationError.TooDeep
        else
          match skipSpacesAndComments true cs with
          | Except.error err => Except.error err
          | Except.ok [] => Except.error DeserializationError.IncompleteInput
          | Except.ok (d :: ds) =>
            if d = 125 then Except.ok (JsonVariant.object [], ds)
            else
              match parseObject fuel (nestingLimit - 1) [] (d :: ds) with
              | Except.error err => Except.error err
              | Except.ok (members, rest) => Except.ok (JsonVariant.object members, rest)
      else if c = 34 ∨ c = 39 then
        match parseQuotedString c (cs.length + 1) 0 [] cs with
        | Except.error err => Except.error err
        | Except.ok (bytes, rest) => Except.ok (JsonVariant.str bytes, rest)
      else if c = 116 then
        match skipKeyword [116, 114, 117, 101] (c :: cs) with
        | Except.error err => Except.error err
        | Except.ok rest => Except.ok (JsonVariant.bool true, rest)
      else if c = 102 then
        match skipKeyword [102, 97, 108, 115, 101] (c :: cs) with
        | Except.error err => Except.error err
        | Except.ok rest => Except.ok (JsonVariant.bool false, rest)
      else if c = 110 then
        match skipKeyword [110, 117, 108, 108] (c :: cs) with
        | Except.error err => Except.error err
        | Except.ok rest => Except.ok (variant, rest)
      else
        match parseNumber (numberSpan 63 (c :: cs)).1 with
        | none => Except.error DeserializationError.InvalidInput
        | some v => Except.ok (v, (numberSpan 63 (c :: cs)).2)

/-- Modelled from the spec: the JSON reader of ArduinoJson is not in the sources;
read the elements of an array after its opening bracket, up to and
including its closing bracket. -/
def parseArray : Nat → Nat → List JsonVariant → List Nat → Reading (List JsonVariant)
  | 0, _, _, _ => Except.error DeserializationError.TooDeep
  | fuel + 1, nestingLimit, elements, input =>
    match parseVariant fuel nestingLimit JsonVariant.null input with
    | Except.error err => Except.error err
    | Except.ok (v, rest) =>
      match skipSpacesAndComments true rest with
      | Except.error err => Except.error err
      | Except.ok [] => Except.error DeserializationError.IncompleteInput
      | Except.ok (c :: cs) =>
        if c = CLOSE_BRACKET then Except.ok (elements ++ [v], cs)
        else if c = 44 then parseArray fuel nestingLimit (elements ++ [v]) cs
        else Except.error DeserializationError.InvalidInput

/-- Modelled from the spec: the JSON reader of ArduinoJson is not in the sources;
read the members of an object after its opening brace, up to and including
its closing brace. -/
def parseObject : Nat → Nat → List (String × JsonVariant) → List Nat →
    Reading (List (String × JsonVariant))
  | 0, _, _, _ => Except.error DeserializationError.TooDeep
  | fuel + 1, nestingLimit, members, input =>
    match parseKey input with
    | Except.error err => Except.error err
    | Except.ok (keyBytes, afterKey) =>
      match skipSpacesAndComments true afterKey with
      | Except.error err => Except.error err
      | Except.ok [] => Except.error DeserializationError.IncompleteInput
      | Except.ok (c :: cs) =>
        if c = 58 then
          match parseVariant fuel nestingLimit (lookupMember (keyOf keyBytes) members) cs with
          | Except.error err => Except.error err
          | Except.ok (v, rest) =>
            match skipSpacesAndComments true rest with
            | Except.error err => Except.error err
            | Except.ok [] => Except.error DeserializationError.IncompleteInput
            | Except.ok (d :: ds) =>
              if d = 125 then Except.ok (setMember (keyOf keyBytes) v members, ds)
              else if d = 44 then
                match skipSpacesAndComments true ds with
                | Except.error err => Except.error err
                | Except.ok next =>
                  parseObject fuel nestingLimit (setMember (keyOf keyBytes) v members) next
              else Except.error DeserializationError.InvalidInput
        else Except.error DeserializationError.InvalidInput
end

/-- Modelled from the spec: the JSON reader of ArduinoJson is not in the sources;
whether trailing bytes after the value go unnoticed: the reader looks past
the end of a number only. -/
def isEnclosed (v : JsonVariant) : Bool :=
  match v with
  | JsonVariant.int _ => false
  | JsonVariant.float _ => false
  | _ => true

/-- Modelled from the spec: the JSON reader of ArduinoJson is not in the sources;
the reading of a payload text: the text ends at its first NUL, the first
value is read, and bytes after a value other than a number are not looked at. -/
def readJsonText (body : List Nat) : JsonText :=
  match skipSpacesAndComments false (cstr body) with
  | Except.error err => JsonText.rejected err
  | Except.ok input =>
    match parseVariant (2 * input.length + 1) NESTING_LIMIT JsonVariant.null input with
    | Except.error err => JsonText.rejected err
    | Except.ok (v, rest) =>
      if !rest.isEmpty && !isEnclosed v then
        JsonText.rejected DeserializationError.InvalidInput
      else JsonText.value v

/-- The error code of a rejected payload. -/
def JsonText.errorCode? : JsonText → Option DeserializationError
  | JsonText.rejected code => some code
  | JsonText.value _ => none

/-! ## Vocabulary of the properties -/

/-- The string an element carries under `key`, when it is an object with a
string member of that name. -/
def stringMember? (e : JsonVariant) (key : String) : Option (List Nat) :=
  match getMember e key with
  | JsonVariant.str bytes => some (cstr bytes)
  | _ => none

/-- The integer an element carries under `key`, when it is an object with an
integer member of that name. -/
def intMember? (e : JsonVariant) (key : String) : Option Int :=
  match getMember e key with
  | JsonVariant.int n => some n
  | _ => none

/-- The element has an integer `eta_min` in `[0, 255]`. -/
def etaInRange (e : JsonVariant) : Bool :=
  match intMember? e "eta_min" with
  | some n => decide (0 ≤ n ∧ n ≤ 255)
  | none => false

/-- A well-formed element: an object whose `eta_min` is an integer in `[0, 255]`,
whose `line` is a string of at most 7 characters and whose `destination` is a
string of at most 39 characters. -/
def wellFormed (e : JsonVariant) : Bool :=
  etaInRange e &&
  (match stringMember? e "line" with
   | some l => decide (l.length ≤ 7)
   | none => false) &&
  (match stringMember? e "destination" with
   | some d => decide (d.length ≤ 39)
   | none => false)

/-- The slot holds exactly the line, destination and `eta_min` of the element. -/
def HoldsElement (d : Departure) (e : JsonVariant) : Prop :=
  stringMember? e "line" = some (arrayString d.line) ∧
  stringMember? e "destination" = some (arrayString d.destination) ∧
  intMember? e "eta_min" = some (d.etaMinutes : Int)

/-- The string field of an element as the decoder reads it: the member under
`key`, the empty string when it is absent or not a string. -/
def fieldString (e : JsonVariant) (key : String) : List Nat :=
  (stringMember? e key).getD []

/-- The slot holds the decoded form of the element: its `eta_min` unchanged and
the leading 7 and 39 characters of its `line` and `destination`. -/
def HoldsDecoded (d : Departure) (e : JsonVariant) : Prop :=
  arrayString d.line = (fieldString e "line").take 7 ∧
  arrayString d.destination = (fieldString e "destination").take 39 ∧
  intMember? e "eta_min" = some (d.etaMinutes : Int)

/-- An empty slot: empty line, empty destination, `etaMinutes = 0`. -/
def IsEmptySlot (d : Departure) : Prop :=
  arrayString d.line = [] ∧ arrayString d.destination = [] ∧ d.etaMinutes = 0

/-- The slot holds the decoded form of some accepted element. -/
def IsDecodedEntry (d : Departure) : Prop :=
  ∃ e : JsonVariant, etaInRange e = true ∧ HoldsDecoded d e



/-- What the loop body of `parseDeparturesFromJson` stores for element `obj` in
a slot that held `prev`. -/
def decodeInto (prev : Departure) (obj : JsonVariant) : Departure :=
  storeDeparture prev (stringOr (getMember obj "line") [])
    (stringOr (getMember obj "destination") []) (intOr (getMember obj "eta_min") (-1))



/-- The tick went on past the poll gate: it ended at a statement after
`lastApiPoll = now`. -/
def TickExit.pastGate : TickExit → Bool
  | TickExit.offline => false
  | TickExit.notDue => false
  | _ => true

/-- The tick called `performHttpsGet` before it ended. -/
def TickExit.fetchAttempted : TickExit → Bool
  | TickExit.fetchFailed => true
  | TickExit.parsed => true
  | _ => false

/-- The difference `now - last` of 32-bit unsigned arithmetic, as the
mathematical residue modulo `2 ^ 32`. -/
def wrapDistance (now last : Nat) : Int :=
  ((now : Int) - (last : Int)) % 2 ^ 32

/-- The store invariant on what `networkGetDepartures` hands out: the count is
at most 8, the slots below the count hold decoded entries and the slots from
the count on are empty. -/
def StoreInvariant (st : NetState) : Prop :=
  (networkGetDepartures st).2 ≤ MAX_DEPARTURES ∧
  ∀ i : Fin MAX_DEPARTURES,
    (i.val < (networkGetDepartures st).2 → IsDecodedEntry ((networkGetDepartures st).1 i)) ∧
    ((networkGetDepartures st).2 ≤ i.val → IsEmptySlot ((networkGetDepartures st).1 i))

/-- The state after a sequence of calls of `networkLoop`. -/
def runTicks (readJson : List Nat → JsonText) (st : NetState) (ticks : List TickInput) :
    NetState :=
  ticks.foldl (fun s inp => (networkLoop readJson s inp).1) st

/-- The clock reading of the latest tick of a sequence that went past the poll
gate, with the state in which each tick starts; `none` while no tick did. -/
def lastDueTick (readJson : List Nat → JsonText) :
    NetState → List TickInput → Option Nat → Option Nat
  | _, [], latest => latest
  | st, inp :: rest, latest =>
    let r := networkLoop readJson st inp
    lastDueTick readJson r.1 rest
      (if r.2.pastGate then some (inp.millis % ULONG_MOD) else latest)

/-! ## Concrete inputs -/

/-- The object `{"line": .., "destination": .., "eta_min": ..}` with the given
field bytes. -/
def departureObjectOf (line destination : List Nat) (eta : Int) : JsonVariant :=
  JsonVariant.object
    [("line", JsonVariant.str line),
     ("destination", JsonVariant.str destination),
     ("eta_min", JsonVariant.int eta)]

/-- The object `{"line": .., "destination": .., "eta_min": ..}` of ASCII fields. -/
def departureObject (line destination : String) (eta : Int) : JsonVariant :=
  departureObjectOf (ascii line) (ascii destination) eta

/-- The elements of the example response of `network.cpp`. -/
def exampleElements : List JsonVariant :=
  [departureObject "M4" "Hackescher Markt" 3, departureObject "M5" "Hauptbahnhof" 8]

/-- The example response of `network.cpp` as a document. -/
def exampleDoc : JsonVariant :=
  JsonVariant.array exampleElements

/-- The text of the example response. -/
def exampleBody : List Nat :=
  ascii ("[\x7b\"line\":\"M4\",\"destination\":\"Hackescher Markt\",\"eta_min\":3\x7d," ++
    "\x7b\"line\":\"M5\",\"destination\":\"Hauptbahnhof\",\"eta_min\":8\x7d]")

/-- A response with a header block in front of the example body. -/
def exampleResponse : List Nat :=
  ascii "HTTP/1.1 200 OK\r\nContent-Type: application/json" ++ HEADER_END ++ exampleBody

/-- A response cut off inside its header block. -/
def truncatedResponse : List Nat :=
  ascii "HTTP/1.1 200 OK\r\n"

/-- A reader that knows the example body and rejects every other text. -/
def exampleReader (body : List Nat) : JsonText :=
  if body = exampleBody then JsonText.value exampleDoc
  else JsonText.rejected DeserializationError.InvalidInput

/-- A slot of zero bytes. -/
def zeroDeparture : Departure :=
  { line := fun _ => 0, destination := fun _ => 0, etaMinutes := 0 }

/-- The statics as zero-initialised at program start. -/
def emptyState : NetState :=
  { departureBuffer := fun _ => zeroDeparture
    departureCount := 0
    lastApiPoll := 0
    wifiConnected := false }

/-- A state whose store holds the result of an earlier successful decode. -/
def loadedState : NetState :=
  parseDeparturesFromJson emptyState (JsonText.value exampleDoc)

/-- Forty well-formed elements: their pool slots alone (160 slots of 16 bytes)
exceed `CAPACITY`. -/
def overBudgetElements : List JsonVariant :=
  List.replicate 40 (departureObject "M4" "Hackescher Markt" 3)

/-- Nine well-formed elements with `eta_min` 0 to 8. -/
def nineElements : List JsonVariant :=
  (List.range 9).map (fun k => departureObject "M4" "Hackescher Markt" (k : Int))

/-- An array in which accepted elements alternate with rejected ones: a missing
`eta_min`, one above 255, a negative one, a string, and a non-object. -/
def mixedElements : List JsonVariant :=
  [ departureObject "M4" "Hackescher Markt" 3,
    JsonVariant.object [("line", JsonVariant.str (ascii "M1"))],
    departureObject "M2" "Am Kupfergraben" 256,
    departureObject "M6" "Riesaer Str." (-1),
    JsonVariant.object [("line", JsonVariant.str (ascii "M8")),
      ("eta_min", JsonVariant.str (ascii "5"))],
    JsonVariant.int 7,
    departureObject "M5" "Hauptbahnhof" 8 ]

/-- The example body cut off inside its second element (truncated input). -/
def truncatedBody : List Nat :=
  exampleBody.take 75

/-- An array whose only element lacks the colon between key and value. -/
def malformedBody : List Nat :=
  ascii "[\x7b\"line\" \"M4\"\x7d]"

/-- The example body, a complete array, followed by trailing garbage. -/
def trailingGarbageBody : List Nat :=
  exampleBody ++ ascii " trailing garbage"

/-- Ten further members of a departure object. -/
def furtherMembers : List (String × JsonVariant) :=
  [("platform", JsonVariant.int 2), ("delay", JsonVariant.int 0),
   ("cancelled", JsonVariant.bool false), ("operator", JsonVariant.str (ascii "BVG")),
   ("direction", JsonVariant.int 1), ("trip", JsonVariant.int 4711),
   ("stop", JsonVariant.int 900), ("product", JsonVariant.str (ascii "tram")),
   ("planned", JsonVariant.int 1), ("realtime", JsonVariant.bool true)]

/-- Eight well-formed elements that each carry ten further members: their pool
slots alone (112 slots of 16 bytes) exceed `CAPACITY`. -/
def crowdedElements : List JsonVariant :=
  List.replicate 8
    (JsonVariant.object
      ([("line", JsonVariant.str (ascii "M4")),
        ("destination", JsonVariant.str (ascii "Hackescher Markt")),
        ("eta_min", JsonVariant.int 3)] ++ furtherMembers))

/-- A valid fix. -/
def validFix : GpsLocation :=
  { latitude := 52.520007, longitude := 13.404954, valid := true }

/-- The location before any fix. -/
def noFix : GpsLocation :=
  { latitude := 0.0, longitude := 0.0, valid := false }

/-- An online tick at clock reading `ms` without a fix. -/
def tickWithoutFix (ms : Nat) : TickInput :=
  { wifiStatusConnected := true, millis := ms, location := noFix,
    connectOk := false, received := [] }

/-- An online tick at clock reading `ms` with a fix and the example response. -/
def tickWithResponse (ms : Nat) : TickInput :=
  { wifiStatusConnected := true, millis := ms, location := validFix,
    connectOk := true, received := exampleResponse }

/-- An offline tick at clock reading `ms`. -/
def tickOffline (ms : Nat) : TickInput :=
  { wifiStatusConnected := false, millis := ms, location := validFix,
    connectOk := true, received := exampleResponse }

/-! ## Lemmas on the helpers -/

theorem foldl_update_each {α : Type} {n : Nat} (f : α → α) (l : List (Fin n)) (hl : l.Nodup)
    (buf : Fin n → α) (j : Fin n) :
    (l.foldl (fun b i => Function.update b i (f (b i))) buf) j
      = if j ∈ l then f (buf j) else buf j := by
  induction l generalizing buf with
  | nil => simp
  | cons a t ih =>
    have hat : a ∉ t := (List.nodup_cons.mp hl).1
    have ht : t.Nodup := (List.nodup_cons.mp hl).2
    rw [List.foldl_cons, ih ht]
    by_cases hja : j = a
    · subst hja
      simp [hat]
    · by_cases hjt : j ∈ t
      · simp [hjt, hja, Function.update_noteq hja]
      · simp [hjt, hja, Function.update_noteq hja]

theorem clearDepartures_buffer (st : NetState) (j : Fin MAX_DEPARTURES) :
    (clearDepartures st).departureBuffer j = clearSlot (st.departureBuffer j) := by
  simp only [clearDepartures]
  rw [foldl_update_each clearSlot _ (List.nodup_finRange _)]
  simp [List.mem_finRange]

theorem clearDepartures_count (st : NetState) : (clearDepartures st).departureCount = 0 := rfl

theorem clearDepartures_lastApiPoll (st : NetState) :
    (clearDepartures st).lastApiPoll = st.lastApiPoll := rfl

theorem clearDepartures_wifiConnected (st : NetState) :
    (clearDepartures st).wifiConnected = st.wifiConnected := rfl

theorem cstr_ne_zero {bytes : List Nat} {b : Nat} (h : b ∈ cstr bytes) : b ≠ 0 := by
  have := List.mem_takeWhile_imp h
  simpa using this

theorem cstr_append_zero (front rest : List Nat) (h : ∀ b ∈ front, b ≠ 0) :
    cstr (front ++ 0 :: rest) = front := by
  induction front with
  | nil => simp [cstr]
  | cons a t ih =>
    have ha : a ≠ 0 := h a (by simp)
    have ht : ∀ b ∈ t, b ≠ 0 := fun b hb => h b (by simp [hb])
    have hne : (a != 0) = true := by simpa using ha
    have hrec := ih ht
    simp only [cstr] at hrec ⊢
    rw [List.cons_append, List.takeWhile_cons, hne]
    simp [hrec]

/-- A list is its first `k` entries, the entry at `k` and what follows. -/
theorem list_split_at {l : List Nat} {k : Nat} (hk : k < l.length) :
    l = l.take k ++ l[k] :: l.drop (k + 1) := by
  conv_lhs => rw [← List.take_append_drop k l]
  rw [List.drop_eq_getElem_cons hk]

theorem arrayString_of_front {m : Nat} (a : Fin m → Nat) (front : List Nat)
    (hlen : front.length < m) (hfront : ∀ b ∈ front, b ≠ 0)
    (hcopy : ∀ (j : Fin m) (hj : j.val < front.length), a j = front[j.val])
    (hterm : a ⟨front.length, hlen⟩ = 0) :
    arrayString a = front := by
  unfold arrayString
  have hk : front.length < (List.ofFn a).length := by simpa using hlen
  rw [list_split_at hk]
  have h1 : (List.ofFn a).take front.length = front := by
    apply List.ext_getElem
    · simp; omega
    · intro i h1 h2
      simp only [List.getElem_take, List.getElem_ofFn]
      exact hcopy ⟨i, by simp at h1; omega⟩ h2
  have h2 : (List.ofFn a)[front.length] = 0 := by
    simp only [List.getElem_ofFn]; exact hterm
  rw [h1, h2]
  exact cstr_append_zero front _ hfront

theorem arrayString_strncpy {m : Nat} (dest : Fin m → Nat) (src : List Nat) (n : Nat)
    (hn : n < m) :
    arrayString (Function.update (strncpy dest src n) ⟨n, hn⟩ 0) = (cstr src).take n := by
  have hfl : ((cstr src).take n).length < m := by
    simp only [List.length_take]; omega
  apply arrayString_of_front _ _ hfl
  · intro b hb
    exact cstr_ne_zero (List.mem_of_mem_take hb)
  · intro j hj
    have hjn : j.val < n := by
      simp only [List.length_take] at hj; omega
    have hne : j ≠ ⟨n, hn⟩ := by
      intro h; rw [h] at hjn; simp at hjn
    rw [Function.update_noteq hne]
    simp only [strncpy, hjn, if_true]
    have hjl : j.val < (cstr src).length := by
      simp only [List.length_take] at hj; omega
    rw [List.getD_eq_getElem _ _ hjl]
    simp [List.getElem_take]
  · by_cases hlen : (cstr src).length < n
    · have hk : ((cstr src).take n).length = (cstr src).length := by
        simp only [List.length_take]; omega
      have hne : (⟨((cstr src).take n).length, hfl⟩ : Fin m) ≠ ⟨n, hn⟩ := by
        intro h
        have := congrArg Fin.val h
        simp only [hk] at this; omega
      rw [Function.update_noteq hne]
      simp only [strncpy, hk, hlen, if_true]
      exact List.getD_eq_default _ _ (le_refl _)
    · have hk : ((cstr src).take n).length = n := by
        simp only [List.length_take]; omega
      have heq : (⟨((cstr src).take n).length, hfl⟩ : Fin m) = ⟨n, hn⟩ := by
        apply Fin.ext; exact hk
      rw [heq, Function.update_same]

theorem etaField_of_inRange {obj : JsonVariant} (h : etaInRange obj = true) :
    ∃ n : Int, intMember? obj "eta_min" = some n ∧ 0 ≤ n ∧ n ≤ 255 ∧
      intOr (getMember obj "eta_min") (-1) = n := by
  unfold etaInRange at h
  unfold intMember? at h ⊢
  unfold intOr
  cases hg : getMember obj "eta_min" <;> simp [hg] at h ⊢
  rename_i n
  refine ⟨h.1, h.2, ?_⟩
  intro hlow
  omega

theorem etaField_reject_iff (obj : JsonVariant) :
    (intOr (getMember obj "eta_min") (-1) < 0 ∨ intOr (getMember obj "eta_min") (-1) > 255)
      ↔ etaInRange obj = false := by
  unfold etaInRange intMember? intOr
  cases hg : getMember obj "eta_min" <;> simp
  rename_i n
  split_ifs with hr
  · constructor
    · intro h h0; omega
    · intro h
      by_cases h0 : 0 ≤ n
      · right; exact h h0
      · left; omega
  · constructor
    · intro _ h0
      by_contra hle
      apply hr
      constructor <;> omega
    · intro _; left; omega

theorem parseLoop_spec (elems : List JsonVariant) :
    ∀ (idx : Nat) (buf : Fin MAX_DEPARTURES → Departure), idx ≤ MAX_DEPARTURES →
      (parseLoop elems idx buf).1
          = min MAX_DEPARTURES (idx + (elems.filter etaInRange).length) ∧
      ∀ j : Fin MAX_DEPARTURES,
        (parseLoop elems idx buf).2 j
          = match (if idx ≤ j.val then (elems.filter etaInRange)[j.val - idx]? else none) with
            | some e => decodeInto (buf j) e
            | none => buf j := by
  induction elems with
  | nil =>
    intro idx buf hidx
    simp [parseLoop]
    omega
  | cons obj rest ih =>
    intro idx buf hidx
    unfold parseLoop
    by_cases hlt : idx < MAX_DEPARTURES
    · rw [dif_neg (Nat.not_le_of_lt hlt)]
      by_cases hacc : etaInRange obj = true
      · have hcond : ¬ (intOr (getMember obj "eta_min") (-1) < 0 ∨
            intOr (getMember obj "eta_min") (-1) > 255) := by
          rw [etaField_reject_iff]; simp [hacc]
        simp only [hcond, if_false]
        obtain ⟨hcount, hbuf⟩ := ih (idx + 1)
          (Function.update buf ⟨idx, hlt⟩ (decodeInto (buf ⟨idx, hlt⟩) obj)) (by omega)
        have hfil : (obj :: rest).filter etaInRange = obj :: rest.filter etaInRange := by
          simp [List.filter_cons, hacc]
        refine ⟨?_, ?_⟩
        · change (parseLoop rest (idx + 1) (Function.update buf ⟨idx, hlt⟩
            (decodeInto (buf ⟨idx, hlt⟩) obj))).1 = _
          rw [hcount, hfil]
          simp only [List.length_cons]
          omega
        · intro j
          change (parseLoop rest (idx + 1) (Function.update buf ⟨idx, hlt⟩
            (decodeInto (buf ⟨idx, hlt⟩) obj))).2 j = _
          rw [hbuf j, hfil]
          by_cases hj : j.val = idx
          · have hje : j = ⟨idx, hlt⟩ := Fin.ext hj
            subst hje
            simp
          · have hne : j ≠ ⟨idx, hlt⟩ := fun h => hj (congrArg Fin.val h)
            rw [Function.update_noteq hne]
            by_cases hle : idx + 1 ≤ j.val
            · have hle2 : idx ≤ j.val := by omega
              have hsub : j.val - idx = (j.val - (idx + 1)) + 1 := by omega
              simp only [hle, hle2, if_true]
              rw [hsub, List.getElem?_cons_succ]
            · have hle2 : ¬ idx ≤ j.val := by omega
              simp only [hle, hle2, if_false]
      · have hrej : etaInRange obj = false := by simpa using hacc
        have hcond : (intOr (getMember obj "eta_min") (-1) < 0 ∨
            intOr (getMember obj "eta_min") (-1) > 255) := by
          rw [etaField_reject_iff]; exact hrej
        simp only [hcond, if_true]
        have hfil : (obj :: rest).filter etaInRange = rest.filter etaInRange := by
          simp [List.filter_cons, hrej]
        rw [hfil]
        exact ih idx buf hidx
    · rw [dif_pos (Nat.le_of_not_lt hlt)]
      refine ⟨?_, ?_⟩
      · simp only; omega
      · intro j
        have : ¬ idx ≤ j.val := by
          have := j.isLt; omega
        simp [this]

theorem arrayString_eq_nil {m : Nat} (a : Fin m → Nat) (hm : 0 < m) (h : a ⟨0, hm⟩ = 0) :
    arrayString a = [] := by
  apply arrayString_of_front a [] hm
  · intro b hb; simp at hb
  · intro j hj; simp at hj
  · exact h

theorem isEmptySlot_clearSlot (d : Departure) : IsEmptySlot (clearSlot d) := by
  refine ⟨?_, ?_, rfl⟩
  · apply arrayString_eq_nil _ (by decide)
    simp [clearSlot]
  · apply arrayString_eq_nil _ (by decide)
    simp [clearSlot]

theorem isEmptySlot_clearDepartures (st : NetState) (i : Fin MAX_DEPARTURES) :
    IsEmptySlot ((clearDepartures st).departureBuffer i) := by
  rw [clearDepartures_buffer]
  exact isEmptySlot_clearSlot _

theorem subUL_eq_wrapDistance (now last : Nat) :
    ((subUL (now % ULONG_MOD) last : Nat) : Int) = wrapDistance now last := by
  unfold subUL wrapDistance ULONG_MOD
  norm_num
  omega

theorem due_iff (now last : Nat) :
    ¬ (subUL (now % ULONG_MOD) last < API_POLL_INTERVAL_MS)
      ↔ (API_POLL_INTERVAL_MS : Int) ≤ wrapDistance now last := by
  rw [← subUL_eq_wrapDistance]
  constructor
  · intro h; exact_mod_cast Nat.le_of_not_lt h
  · intro h hlt
    have : API_POLL_INTERVAL_MS ≤ subUL (now % ULONG_MOD) last := by exact_mod_cast h
    omega

theorem cstr_stringOr (e : JsonVariant) (key : String) :
    cstr (stringOr (getMember e key) []) = fieldString e key := by
  unfold fieldString stringMember? stringOr
  cases getMember e key <;> simp [cstr]

theorem holdsDecoded_decodeInto (prev : Departure) {e : JsonVariant}
    (h : etaInRange e = true) : HoldsDecoded (decodeInto prev e) e := by
  obtain ⟨n, hn, h0, h255, heta⟩ := etaField_of_inRange h
  refine ⟨?_, ?_, ?_⟩
  · simp only [decodeInto, storeDeparture]
    rw [arrayString_strncpy, cstr_stringOr]
    rfl
  · simp only [decodeInto, storeDeparture]
    rw [arrayString_strncpy, cstr_stringOr]
    rfl
  · simp only [decodeInto, storeDeparture, heta, hn]
    congr 1
    omega

theorem holdsElement_of_wellFormed {d : Departure} {e : JsonVariant}
    (hwf : wellFormed e = true) (h : HoldsDecoded d e) : HoldsElement d e := by
  obtain ⟨hl, hd, heta⟩ := h
  unfold wellFormed at hwf
  simp only [Bool.and_eq_true] at hwf
  obtain ⟨⟨_, hline⟩, hdest⟩ := hwf
  refine ⟨?_, ?_, heta⟩
  · unfold fieldString at hl
    cases hs : stringMember? e "line" with
    | none => simp [hs] at hline
    | some l =>
      simp only [hs, decide_eq_true_eq] at hline
      simp only [hs, Option.getD_some] at hl
      rw [hl, List.take_of_length_le hline]
  · unfold fieldString at hd
    cases hs : stringMember? e "destination" with
    | none => simp [hs] at hdest
    | some l =>
      simp only [hs, decide_eq_true_eq] at hdest
      simp only [hs, Option.getD_some] at hd
      rw [hd, List.take_of_length_le hdest]

theorem etaInRange_of_wellFormed {e : JsonVariant} (hwf : wellFormed e = true) :
    etaInRange e = true := by
  unfold wellFormed at hwf
  simp only [Bool.and_eq_true] at hwf
  exact hwf.1.1

theorem parse_error (st : NetState) (json : JsonText) (err : DeserializationError)
    (h : deserializeJson CAPACITY json = Except.error err) :
    parseDeparturesFromJson st json = clearDepartures st := by
  simp only [parseDeparturesFromJson, h]

theorem parse_ok (st : NetState) (json : JsonText) (doc : JsonVariant)
    (h : deserializeJson CAPACITY json = Except.ok doc) :
    (parseDeparturesFromJson st json).departureCount
        = min MAX_DEPARTURES ((asArray doc).filter etaInRange).length ∧
    (∀ j : Fin MAX_DEPARTURES,
      (parseDeparturesFromJson st json).departureBuffer j
        = match ((asArray doc).filter etaInRange)[j.val]? with
          | some e => decodeInto (clearSlot (st.departureBuffer j)) e
          | none => clearSlot (st.departureBuffer j)) ∧
    (parseDeparturesFromJson st json).lastApiPoll = st.lastApiPoll ∧
    (parseDeparturesFromJson st json).wifiConnected = st.wifiConnected := by
  obtain ⟨hc, hb⟩ := parseLoop_spec (asArray doc) 0 (clearDepartures st).departureBuffer
    (Nat.zero_le _)
  simp only [parseDeparturesFromJson, h]
  refine ⟨?_, ?_, rfl, rfl⟩
  · rw [hc]; simp
  · intro j
    rw [hb j]
    simp [clearDepartures_buffer]

theorem parse_kept (st : NetState) (json : JsonText) (doc : JsonVariant)
    (hdoc : deserializeJson CAPACITY json = Except.ok doc) :
    (parseDeparturesFromJson st json).departureCount
        = min MAX_DEPARTURES ((asArray doc).filter etaInRange).length ∧
    (∀ (i : Fin MAX_DEPARTURES) (hi : i.val < ((asArray doc).filter etaInRange).length),
      HoldsDecoded ((parseDeparturesFromJson st json).departureBuffer i)
        (((asArray doc).filter etaInRange).get ⟨i.val, hi⟩)) ∧
    (∀ i : Fin MAX_DEPARTURES, ((asArray doc).filter etaInRange).length ≤ i.val →
      IsEmptySlot ((parseDeparturesFromJson st json).departureBuffer i)) := by
  obtain ⟨hc, hb, _, _⟩ := parse_ok st json _ hdoc
  refine ⟨hc, ?_, ?_⟩
  · intro i hi
    rw [hb i, List.getElem?_eq_getElem hi]
    apply holdsDecoded_decodeInto
    have hmem : ((asArray doc).filter etaInRange)[i.val] ∈ (asArray doc).filter etaInRange :=
      List.getElem_mem hi
    exact (List.mem_filter.mp hmem).2
  · intro i hi
    rw [hb i, List.getElem?_eq_none hi]
    exact isEmptySlot_clearSlot _

/-! ## Lemmas on the reader -/

theorem skipSpaces_suffix (found : Bool) : ∀ (input rest : List Nat),
    skipSpacesAndComments found input = Except.ok rest → rest <:+ input := by
  intro input
  induction input with
  | nil => intro rest h; simp [skipSpacesAndComments] at h
  | cons c cs ih =>
    intro rest h
    simp only [skipSpacesAndComments] at h
    split at h
    · exact (ih rest h).trans (List.suffix_cons c cs)
    · simp only [Except.ok.injEq] at h
      rw [← h]

theorem skipKeyword_suffix : ∀ (kw input rest : List Nat),
    skipKeyword kw input = Except.ok rest → rest <:+ input := by
  intro kw
  induction kw with
  | nil =>
    intro input rest h
    simp only [skipKeyword, Except.ok.injEq] at h
    rw [← h]
  | cons k ks ih =>
    intro input rest h
    cases input with
    | nil => simp [skipKeyword] at h
    | cons c cs =>
      simp only [skipKeyword] at h
      split at h
      · exact (ih cs rest h).trans (List.suffix_cons c cs)
      · simp at h

theorem parseHex_suffix : ∀ (n acc : Nat) (input : List Nat) (v : Nat) (rest : List Nat),
    parseHex n acc input = Except.ok (v, rest) → rest <:+ input := by
  intro n
  induction n with
  | zero =>
    intro acc input v rest h
    simp only [parseHex, Except.ok.injEq, Prod.mk.injEq] at h
    rw [← h.2]
  | succ n ih =>
    intro acc input v rest h
    cases input with
    | nil => simp [parseHex] at h
    | cons c cs =>
      simp only [parseHex] at h
      split at h
      · simp at h
      · exact (ih _ cs v rest h).trans (List.suffix_cons c cs)

theorem parseQuotedString_suffix (stopChar : Nat) : ∀ (fuel high : Nat)
    (acc input bytes rest : List Nat),
    parseQuotedString stopChar fuel high acc input = Except.ok (bytes, rest) →
      rest <:+ input := by
  intro fuel
  induction fuel with
  | zero => intro high acc input bytes rest h; simp [parseQuotedString] at h
  | succ fuel ih =>
    intro high acc input bytes rest h
    cases input with
    | nil => simp [parseQuotedString] at h
    | cons c cs =>
      simp only [parseQuotedString] at h
      split at h
      · simp only [Except.ok.injEq, Prod.mk.injEq] at h
        rw [← h.2]; exact List.suffix_cons c cs
      · split at h
        · split at h
          · simp at h
          · rename_i e es
            have hes : es <:+ c :: e :: es :=
              (List.suffix_cons e es).trans (List.suffix_cons c (e :: es))
            split at h
            · split at h
              · simp at h
              · rename_i codeunit rest2 hhex
                have h2 := (parseHex_suffix _ _ _ _ _ hhex).trans hes
                split at h
                · exact (ih _ _ _ _ _ h).trans h2
                · exact (ih _ _ _ _ _ h).trans h2
            · split at h
              · simp at h
              · exact (ih _ _ _ _ _ h).trans hes
        · exact (ih _ _ _ _ _ h).trans (List.suffix_cons c cs)

theorem parseKey_suffix (input bytes rest : List Nat)
    (h : parseKey input = Except.ok (bytes, rest)) : rest <:+ input := by
  cases input with
  | nil => simp [parseKey] at h
  | cons c cs =>
    simp only [parseKey] at h
    split at h
    · exact (parseQuotedString_suffix _ _ _ _ _ _ _ h).trans (List.suffix_cons c cs)
    · split at h
      · simp only [Except.ok.injEq, Prod.mk.injEq] at h
        rw [← h.2]
        exact List.dropWhile_suffix _
      · simp at h

theorem numberSpan_suffix : ∀ (limit : Nat) (input : List Nat),
    (numberSpan limit input).2 <:+ input := by
  intro limit
  induction limit with
  | zero => intro input; simp [numberSpan]
  | succ limit ih =>
    intro input
    cases input with
    | nil => simp [numberSpan]
    | cons c cs =>
      simp only [numberSpan]
      split
      · exact (ih cs).trans (List.suffix_cons c cs)
      · exact List.suffix_refl _

/-- What is left after a value, an array or an object is a tail of the text
read, and the text of an array read to its end holds a closing bracket. -/
theorem reader_suffix : ∀ fuel : Nat,
    (∀ (nest : Nat) (variant : JsonVariant) (input : List Nat) (v : JsonVariant)
        (rest : List Nat),
      parseVariant fuel nest variant input = Except.ok (v, rest) → rest <:+ input) ∧
    (∀ (nest : Nat) (acc : List JsonVariant) (input : List Nat) (xs : List JsonVariant)
        (rest : List Nat),
      parseArray fuel nest acc input = Except.ok (xs, rest) →
        rest <:+ input ∧ CLOSE_BRACKET ∈ input) ∧
    (∀ (nest : Nat) (acc : List (String × JsonVariant)) (input : List Nat)
        (ms : List (String × JsonVariant)) (rest : List Nat),
      parseObject fuel nest acc input = Except.ok (ms, rest) → rest <:+ input) := by
  intro fuel
  induction fuel with
  | zero =>
    refine ⟨?_, ?_, ?_⟩
    · intro nest variant input v rest h; simp [parseVariant] at h
    · intro nest acc input xs rest h; simp [parseArray] at h
    · intro nest acc input ms rest h; simp [parseObject] at h
  | succ fuel ih =>
    obtain ⟨ihV, ihA, ihO⟩ := ih
    refine ⟨?_, ?_, ?_⟩
    · intro nest variant input v rest h
      simp only [parseVariant] at h
      split at h
      · simp at h
      · simp at h
      · rename_i c cs hskip
        have hin : (c :: cs) <:+ input := skipSpaces_suffix _ _ _ hskip
        have hcs : cs <:+ input := (List.suffix_cons c cs).trans hin
        split at h
        · split at h
          · simp at h
          · split at h
            · simp at h
            · simp at h
            · rename_i d ds hskip2
              have hd : (d :: ds) <:+ input := (skipSpaces_suffix _ _ _ hskip2).trans hcs
              split at h
              · simp only [Except.ok.injEq, Prod.mk.injEq] at h
                rw [← h.2]; exact (List.suffix_cons d ds).trans hd
              · split at h
                · simp at h
                · rename_i elements rest2 harr
                  simp only [Except.ok.injEq, Prod.mk.injEq] at h
                  rw [← h.2]
                  exact (ihA _ _ _ _ _ harr).1.trans hd
        · split at h
          · split at h
            · simp at h
            · split at h
              · simp at h
              · simp at h
              · rename_i d ds hskip2
                have hd : (d :: ds) <:+ input := (skipSpaces_suffix _ _ _ hskip2).trans hcs
                split at h
                · simp only [Except.ok.injEq, Prod.mk.injEq] at h
                  rw [← h.2]; exact (List.suffix_cons d ds).trans hd
                · split at h
                  · simp at h
                  · rename_i members rest2 hobj
                    simp only [Except.ok.injEq, Prod.mk.injEq] at h
                    rw [← h.2]
                    exact (ihO _ _ _ _ _ hobj).trans hd
          · split at h
            · split at h
              · simp at h
              · rename_i bytes rest2 hq
                simp only [Except.ok.injEq, Prod.mk.injEq] at h
                rw [← h.2]
                exact (parseQuotedString_suffix _ _ _ _ _ _ _ hq).trans hcs
            · split at h
              · split at h
                · simp at h
                · rename_i rest2 hk
                  simp only [Except.ok.injEq, Prod.mk.injEq] at h
                  rw [← h.2]
                  exact (skipKeyword_suffix _ _ _ hk).trans hin
              · split at h
                · split at h
                  · simp at h
                  · rename_i rest2 hk
                    simp only [Except.ok.injEq, Prod.mk.injEq] at h
                    rw [← h.2]
                    exact (skipKeyword_suffix _ _ _ hk).trans hin
                · split at h
                  · split at h
                    · simp at h
                    · rename_i rest2 hk
                      simp only [Except.ok.injEq, Prod.mk.injEq] at h
                      rw [← h.2]
                      exact (skipKeyword_suffix _ _ _ hk).trans hin
                  · split at h
                    · simp at h
                    · simp only [Except.ok.injEq, Prod.mk.injEq] at h
                      rw [← h.2]
                      exact (numberSpan_suffix _ _).trans hin
    · intro nest acc input xs rest h
      simp only [parseArray] at h
      split at h
      · simp at h
      · rename_i v rest1 hv
        have h1 : rest1 <:+ input := ihV _ _ _ _ _ hv
        split at h
        · simp at h
        · simp at h
        · rename_i c cs hskip
          have hc : (c :: cs) <:+ input := (skipSpaces_suffix _ _ _ hskip).trans h1
          have hcs : cs <:+ input := (List.suffix_cons c cs).trans hc
          split at h
          · rename_i hclose
            simp only [Except.ok.injEq, Prod.mk.injEq] at h
            rw [← h.2]
            refine ⟨hcs, hc.subset ?_⟩
            rw [hclose]; exact List.mem_cons_self _ _
          · split at h
            · obtain ⟨hs, hm⟩ := ihA _ _ _ _ _ h
              exact ⟨hs.trans hcs, hcs.subset hm⟩
            · simp at h
    · intro nest acc input ms rest h
      simp only [parseObject] at h
      split at h
      · simp at h
      · rename_i keyBytes afterKey hkey
        have h1 : afterKey <:+ input := parseKey_suffix _ _ _ hkey
        split at h
        · simp at h
        · simp at h
        · rename_i c cs hskip
          have hcs : cs <:+ input :=
            (List.suffix_cons c cs).trans ((skipSpaces_suffix _ _ _ hskip).trans h1)
          split at h
          · split at h
            · simp at h
            · rename_i v rest2 hv
              have h2 : rest2 <:+ input := (ihV _ _ _ _ _ hv).trans hcs
              split at h
              · simp at h
              · simp at h
              · rename_i d ds hskip2
                have hds : ds <:+ input :=
                  (List.suffix_cons d ds).trans ((skipSpaces_suffix _ _ _ hskip2).trans h2)
                split at h
                · simp only [Except.ok.injEq, Prod.mk.injEq] at h
                  rw [← h.2]; exact hds
                · split at h
                  · split at h
                    · simp at h
                    · rename_i next hskip3
                      exact (ihO _ _ _ _ _ h).trans
                        ((skipSpaces_suffix _ _ _ hskip3).trans hds)
                  · simp at h
          · simp at h

/-- A text that is read as an array holds a closing bracket. -/
theorem array_read_has_close_bracket (body : List Nat) (xs : List JsonVariant)
    (h : readJsonText body = JsonText.value (JsonVariant.array xs)) :
    CLOSE_BRACKET ∈ body := by
  have hbody : ∀ x, x ∈ cstr body → x ∈ body := fun x hx =>
    List.takeWhile_subset _ hx
  simp only [readJsonText] at h
  split at h
  · simp at h
  · rename_i input hskip
    have hin : input <:+ cstr body := skipSpaces_suffix _ _ _ hskip
    split at h
    · simp at h
    · rename_i v rest hv
      split at h
      · simp at h
      · simp only [JsonText.value.injEq] at h
        subst h
        simp only [parseVariant] at hv
        split at hv
        · simp at hv
        · simp at hv
        · rename_i c cs hskip2
          have hcs : cs <:+ input :=
            (List.suffix_cons c cs).trans (skipSpaces_suffix _ _ _ hskip2)
          split at hv
          · split at hv
            · simp at hv
            · split at hv
              · simp at hv
              · simp at hv
              · rename_i d ds hskip3
                have hd : (d :: ds) <:+ input := (skipSpaces_suffix _ _ _ hskip3).trans hcs
                split at hv
                · rename_i hclose
                  apply hbody
                  apply hin.subset
                  apply hd.subset
                  rw [hclose]; exact List.mem_cons_self _ _
                · split at hv
                  · simp at hv
                  · rename_i elements rest2 harr
                    apply hbody
                    apply hin.subset
                    apply hd.subset
                    exact (reader_suffix _).2.1 _ _ _ _ _ harr |>.2
          · split at hv
            · split at hv
              · simp at hv
              · split at hv <;> try simp at hv
                split at hv
                · simp at hv
                · split at hv <;> simp at hv
            · split at hv
              · split at hv <;> simp at hv
              · split at hv
                · split at hv <;> simp at hv
                · split at hv
                  · split at hv <;> simp at hv
                  · split at hv
                    · split at hv <;> simp at hv
                    · split at hv
                      · simp at hv
                      · rename_i w hnum
                        simp only [Except.ok.injEq, Prod.mk.injEq] at hv
                        exfalso
                        have hw := hv.1
                        subst hw
                        revert hnum
                        simp only [parseNumber]
                        intro hnum
                        split at hnum
                        · simp at hnum
                        · split at hnum
                          · simp at hnum
                          · split at hnum
                            · simp at hnum
                            · split at hnum
                              · simp at hnum
                              · split at hnum <;> simp at hnum

theorem deserializeJson_ok_value {capacity : Nat} {json : JsonText} {doc : JsonVariant}
    (h : deserializeJson capacity json = Except.ok doc) : json = JsonText.value doc := by
  cases json with
  | rejected code => simp [deserializeJson] at h
  | value v =>
    simp only [deserializeJson] at h
    split at h
    · simp only [Except.ok.injEq] at h
      rw [h]
    · simp at h

theorem deserializeJson_rejected {capacity : Nat} {json : JsonText}
    {err : DeserializationError} (h : json.errorCode? = some err) :
    deserializeJson capacity json = Except.error err := by
  cases json with
  | rejected code =>
    simp only [JsonText.errorCode?, Option.some.injEq] at h
    simp [deserializeJson, h]
  | value v => simp [JsonText.errorCode?] at h

theorem asArray_of_no_close_bracket {body : List Nat} {doc : JsonVariant}
    (hno : CLOSE_BRACKET ∉ body) (h : readJsonText body = JsonText.value doc) :
    asArray doc = [] := by
  cases doc with
  | array xs => exact absurd (array_read_has_close_bracket body xs h) hno
  | null => rfl
  | bool b => rfl
  | int n => rfl
  | float l => rfl
  | str b => rfl
  | object m => rfl

/-! ## The decoder -/

/-- C1 (amended). For every payload that deserializes within the document budget
to a JSON array of `N ≤ 8` well-formed elements, `parseDeparturesFromJson` leaves `departureCount = N` and slot `i` holds
exactly the line, destination and `eta_min` of the `i`-th element, for every
`i < N`, whatever the store held before. -/
theorem parse_wellFormed_within_capacity (st : NetState) (json : JsonText)
    (elems : List JsonVariant)
    (hdoc : deserializeJson CAPACITY json = Except.ok (JsonVariant.array elems))
    (hlen : elems.length ≤ MAX_DEPARTURES)
    (hwf : ∀ e ∈ elems, wellFormed e = true) :
    (parseDeparturesFromJson st json).departureCount = elems.length ∧
    ∀ (i : Fin MAX_DEPARTURES) (hi : i.val < elems.length),
      HoldsElement ((parseDeparturesFromJson st json).departureBuffer i)
        (elems.get ⟨i.val, hi⟩) := by
  have hfil : elems.filter etaInRange = elems :=
    List.filter_eq_self.mpr (fun e he => etaInRange_of_wellFormed (hwf e he))
  obtain ⟨hc, hb, _⟩ := parse_kept st json (JsonVariant.array elems) hdoc
  simp only [asArray] at hc hb
  rw [hfil] at hc
  refine ⟨by rw [hc]; exact Nat.min_eq_right hlen, ?_⟩
  intro i hi
  have hi2 : i.val < (elems.filter etaInRange).length := by rw [hfil]; exact hi
  have hdec := hb i hi2
  have hget : (elems.filter etaInRange).get ⟨i.val, hi2⟩ = elems.get ⟨i.val, hi⟩ := by
    simp only [List.get_eq_getElem, hfil]
  rw [hget] at hdec
  exact holdsElement_of_wellFormed (hwf _ (List.get_mem _ _ _)) hdec

/-- C2 (amended). For every payload that deserializes within the document budget
to a JSON array of `N > 8` well-formed elements, `parseDeparturesFromJson` leaves
`departureCount = 8` and slots `0..7` hold the first 8 elements in input order;
the remaining elements are dropped. -/
theorem parse_wellFormed_beyond_capacity (st : NetState) (json : JsonText)
    (elems : List JsonVariant)
    (hdoc : deserializeJson CAPACITY json = Except.ok (JsonVariant.array elems))
    (hlen : MAX_DEPARTURES < elems.length)
    (hwf : ∀ e ∈ elems, wellFormed e = true) :
    (parseDeparturesFromJson st json).departureCount = MAX_DEPARTURES ∧
    ∀ i : Fin MAX_DEPARTURES,
      HoldsElement ((parseDeparturesFromJson st json).departureBuffer i)
        (elems.get ⟨i.val, Nat.lt_trans i.isLt hlen⟩) := by
  have hfil : elems.filter etaInRange = elems :=
    List.filter_eq_self.mpr (fun e he => etaInRange_of_wellFormed (hwf e he))
  obtain ⟨hc, hb, _⟩ := parse_kept st json (JsonVariant.array elems) hdoc
  simp only [asArray] at hc hb
  rw [hfil] at hc
  refine ⟨by rw [hc]; exact Nat.min_eq_left (Nat.le_of_lt hlen), ?_⟩
  intro i
  have hi : i.val < elems.length := Nat.lt_trans i.isLt hlen
  have hi2 : i.val < (elems.filter etaInRange).length := by rw [hfil]; exact hi
  have hdec := hb i hi2
  have hget : (elems.filter etaInRange).get ⟨i.val, hi2⟩ = elems.get ⟨i.val, hi⟩ := by
    simp only [List.get_eq_getElem, hfil]
  rw [hget] at hdec
  exact holdsElement_of_wellFormed (hwf _ (List.get_mem _ _ _)) hdec

/-- C3. For every payload that deserializes to a JSON array, the store after
`parseDeparturesFromJson` is the first (at most 8) of the elements with an
integer `eta_min` in `[0, 255]`, in input order: the count is the smaller of 8 and
the number of such elements, slot `i` holds the decoded form of the `i`-th such
element with `etaMinutes` equal to its `eta_min`, and every later slot is empty.
Elements without such an `eta_min` take no slot and do not stop the decoding. -/
theorem parse_skips_rejected_eta (st : NetState) (json : JsonText)
    (elems : List JsonVariant)
    (hdoc : deserializeJson CAPACITY json = Except.ok (JsonVariant.array elems)) :
    (parseDeparturesFromJson st json).departureCount
        = min MAX_DEPARTURES (elems.filter etaInRange).length ∧
    (∀ (i : Fin MAX_DEPARTURES) (hi : i.val < (elems.filter etaInRange).length),
      HoldsDecoded ((parseDeparturesFromJson st json).departureBuffer i)
        ((elems.filter etaInRange).get ⟨i.val, hi⟩)) ∧
    (∀ i : Fin MAX_DEPARTURES, (elems.filter etaInRange).length ≤ i.val →
      IsEmptySlot ((parseDeparturesFromJson st json).departureBuffer i)) :=
  parse_kept st json (JsonVariant.array elems) hdoc

/-- C4 (amended). For every payload on which `deserializeJson` reports an error, and
for every body text that holds no closing bracket `]` (the empty string and every
text cut off before the first `]`, as a truncated array of objects is),
`parseDeparturesFromJson` leaves `departureCount = 0` and every slot empty,
whatever the store held before the call. -/
theorem parse_failure_clears (st : NetState) :
    (∀ (json : JsonText) (err : DeserializationError),
      deserializeJson CAPACITY json = Except.error err →
        (parseDeparturesFromJson st json).departureCount = 0 ∧
        ∀ i : Fin MAX_DEPARTURES,
          IsEmptySlot ((parseDeparturesFromJson st json).departureBuffer i)) ∧
    (∀ body : List Nat, CLOSE_BRACKET ∉ body →
        (parseDeparturesFromJson st (readJsonText body)).departureCount = 0 ∧
        ∀ i : Fin MAX_DEPARTURES,
          IsEmptySlot ((parseDeparturesFromJson st (readJsonText body)).departureBuffer i)) := by
  have hfail : ∀ (json : JsonText) (err : DeserializationError),
      deserializeJson CAPACITY json = Except.error err →
        (parseDeparturesFromJson st json).departureCount = 0 ∧
        ∀ i : Fin MAX_DEPARTURES,
          IsEmptySlot ((parseDeparturesFromJson st json).departureBuffer i) := by
    intro json err herr
    rw [parse_error st json err herr]
    exact ⟨rfl, isEmptySlot_clearDepartures st⟩
  refine ⟨hfail, ?_⟩
  intro body hno
  cases hd : deserializeJson CAPACITY (readJsonText body) with
  | error err => exact hfail _ err hd
  | ok doc =>
    have hempty : asArray doc = [] :=
      asArray_of_no_close_bracket hno (deserializeJson_ok_value hd)
    obtain ⟨hc, _, hemp⟩ := parse_kept st (readJsonText body) doc hd
    rw [hempty] at hc hemp
    refine ⟨by simpa using hc, fun i => hemp i (by simp)⟩

/-- Witness of C1 at the two-element example: count 2, entry 0 is
("M4", "Hackescher Markt", 3) and entry 1 is ("M5", "Hauptbahnhof", 8). -/
theorem parse_wellFormed_within_capacity_witness :
    (deserializeJson CAPACITY (JsonText.value exampleDoc)
        = Except.ok (JsonVariant.array exampleElements) ∧
      exampleElements.length ≤ MAX_DEPARTURES ∧
      (∀ e ∈ exampleElements, wellFormed e = true)) ∧
    ((parseDeparturesFromJson emptyState (JsonText.value exampleDoc)).departureCount
        = exampleElements.length ∧
      ∀ (i : Fin MAX_DEPARTURES) (hi : i.val < exampleElements.length),
        HoldsElement
          ((parseDeparturesFromJson emptyState (JsonText.value exampleDoc)).departureBuffer i)
          (exampleElements.get ⟨i.val, hi⟩)) ∧
    (loadedState.departureCount = 2 ∧
      arrayString (loadedState.departureBuffer 0).line = ascii "M4" ∧
      arrayString (loadedState.departureBuffer 0).destination = ascii "Hackescher Markt" ∧
      (loadedState.departureBuffer 0).etaMinutes = 3 ∧
      arrayString (loadedState.departureBuffer 1).line = ascii "M5" ∧
      arrayString (loadedState.departureBuffer 1).destination = ascii "Hauptbahnhof" ∧
      (loadedState.departureBuffer 1).etaMinutes = 8) :=
  ⟨⟨rfl, by decide, by decide⟩,
    parse_wellFormed_within_capacity emptyState (JsonText.value exampleDoc) exampleElements
      rfl (by decide) (by decide),
    by decide⟩

/-- Counterexample to C2 as stated: an array of 40 well-formed elements exceeds
the document budget, `deserializeJson` fails and the store stays empty. -/
theorem over_budget_array_leaves_store_empty :
    MAX_DEPARTURES < overBudgetElements.length ∧
    (∀ e ∈ overBudgetElements, wellFormed e = true) ∧
    deserializeJson CAPACITY (JsonText.value (JsonVariant.array overBudgetElements))
      = Except.error DeserializationError.NoMemory ∧
    (parseDeparturesFromJson emptyState
      (JsonText.value (JsonVariant.array overBudgetElements))).departureCount = 0 ∧
    (parseDeparturesFromJson emptyState
      (JsonText.value (JsonVariant.array overBudgetElements))).departureCount
        ≠ MAX_DEPARTURES :=
  ⟨by decide, by decide, rfl, by decide, by decide⟩

/-- Counterexample to C1 as stated: an array of 8 well-formed elements that each
carry ten further members exceeds the document budget, `deserializeJson` fails
and the store stays empty. -/
theorem crowded_array_leaves_store_empty :
    crowdedElements.length ≤ MAX_DEPARTURES ∧
    (∀ e ∈ crowdedElements, wellFormed e = true) ∧
    deserializeJson CAPACITY (JsonText.value (JsonVariant.array crowdedElements))
      = Except.error DeserializationError.NoMemory ∧
    (parseDeparturesFromJson emptyState
      (JsonText.value (JsonVariant.array crowdedElements))).departureCount = 0 ∧
    (parseDeparturesFromJson emptyState
      (JsonText.value (JsonVariant.array crowdedElements))).departureCount
        ≠ crowdedElements.length :=
  ⟨by decide, by decide, rfl, by decide, by decide⟩

/-! ## The tick -/

theorem tick_offline (readJson : List Nat → JsonText) (st : NetState) (inp : TickInput)
    (h : inp.wifiStatusConnected = false) :
    networkLoop readJson st inp = ({ st with wifiConnected := false }, TickExit.offline) := by
  simp [networkLoop, h]

theorem tick_notDue (readJson : List Nat → JsonText) (st : NetState) (inp : TickInput)
    (h : inp.wifiStatusConnected = true)
    (hnd : subUL (inp.millis % ULONG_MOD) st.lastApiPoll < API_POLL_INTERVAL_MS) :
    networkLoop readJson st inp = ({ st with wifiConnected := true }, TickExit.notDue) := by
  simp [networkLoop, h, hnd]

theorem tick_invalidLocation (readJson : List Nat → JsonText) (st : NetState) (inp : TickInput)
    (h : inp.wifiStatusConnected = true)
    (hdue : ¬ subUL (inp.millis % ULONG_MOD) st.lastApiPoll < API_POLL_INTERVAL_MS)
    (hloc : inp.location.valid = false) :
    networkLoop readJson st inp
      = (clearDepartures { st with wifiConnected := true, lastApiPoll := inp.millis % ULONG_MOD },
          TickExit.invalidLocation) := by
  simp [networkLoop, h, hdue, hloc]

theorem tick_fetchFailed (readJson : List Nat → JsonText) (st : NetState) (inp : TickInput)
    (h : inp.wifiStatusConnected = true)
    (hdue : ¬ subUL (inp.millis % ULONG_MOD) st.lastApiPoll < API_POLL_INTERVAL_MS)
    (hloc : inp.location.valid = true)
    (hfetch : (performHttpsGet inp.connectOk inp.received).1 = false) :
    networkLoop readJson st inp
      = (clearDepartures { st with wifiConnected := true, lastApiPoll := inp.millis % ULONG_MOD },
          TickExit.fetchFailed) := by
  simp [networkLoop, h, hdue, hloc, hfetch]

theorem tick_parsed (readJson : List Nat → JsonText) (st : NetState) (inp : TickInput)
    (h : inp.wifiStatusConnected = true)
    (hdue : ¬ subUL (inp.millis % ULONG_MOD) st.lastApiPoll < API_POLL_INTERVAL_MS)
    (hloc : inp.location.valid = true)
    (hfetch : (performHttpsGet inp.connectOk inp.received).1 = true) :
    networkLoop readJson st inp
      = (parseDeparturesFromJson
            { st with wifiConnected := true, lastApiPoll := inp.millis % ULONG_MOD }
            (readJson (performHttpsGet inp.connectOk inp.received).2),
          TickExit.parsed) := by
  simp [networkLoop, h, hdue, hloc, hfetch]

/-- The five ways a tick can end, each with its resulting state. -/
theorem tick_cases (readJson : List Nat → JsonText) (st : NetState) (inp : TickInput) :
    (inp.wifiStatusConnected = false ∧
      networkLoop readJson st inp = ({ st with wifiConnected := false }, TickExit.offline)) ∨
    (inp.wifiStatusConnected = true ∧
      subUL (inp.millis % ULONG_MOD) st.lastApiPoll < API_POLL_INTERVAL_MS ∧
      networkLoop readJson st inp = ({ st with wifiConnected := true }, TickExit.notDue)) ∨
    (inp.wifiStatusConnected = true ∧
      ¬ subUL (inp.millis % ULONG_MOD) st.lastApiPoll < API_POLL_INTERVAL_MS ∧
      ((inp.location.valid = false ∧ networkLoop readJson st inp
          = (clearDepartures
              { st with wifiConnected := true, lastApiPoll := inp.millis % ULONG_MOD },
            TickExit.invalidLocation)) ∨
       (inp.location.valid = true ∧
          (performHttpsGet inp.connectOk inp.received).1 = false ∧
          networkLoop readJson st inp
          = (clearDepartures
              { st with wifiConnected := true, lastApiPoll := inp.millis % ULONG_MOD },
            TickExit.fetchFailed)) ∨
       (inp.location.valid = true ∧
          (performHttpsGet inp.connectOk inp.received).1 = true ∧
          networkLoop readJson st inp
          = (parseDeparturesFromJson
              { st with wifiConnected := true, lastApiPoll := inp.millis % ULONG_MOD }
              (readJson (performHttpsGet inp.connectOk inp.received).2),
            TickExit.parsed)))) := by
  cases hw : inp.wifiStatusConnected with
  | false => exact Or.inl ⟨rfl, tick_offline readJson st inp hw⟩
  | true =>
    right
    by_cases hnd : subUL (inp.millis % ULONG_MOD) st.lastApiPoll < API_POLL_INTERVAL_MS
    · exact Or.inl ⟨rfl, hnd, tick_notDue readJson st inp hw hnd⟩
    · right
      refine ⟨rfl, hnd, ?_⟩
      cases hloc : inp.location.valid with
      | false => exact Or.inl ⟨rfl, tick_invalidLocation readJson st inp hw hnd hloc⟩
      | true =>
        right
        cases hf : (performHttpsGet inp.connectOk inp.received).1 with
        | false => exact Or.inl ⟨rfl, rfl, tick_fetchFailed readJson st inp hw hnd hloc hf⟩
        | true => exact Or.inr ⟨rfl, rfl, tick_parsed readJson st inp hw hnd hloc hf⟩

theorem parse_lastApiPoll (st : NetState) (json : JsonText) :
    (parseDeparturesFromJson st json).lastApiPoll = st.lastApiPoll := by
  cases h : deserializeJson CAPACITY json with
  | error e => rw [parse_error st json e h]; rfl
  | ok doc => exact (parse_ok st json doc h).2.2.1

theorem parse_wifiConnected (st : NetState) (json : JsonText) :
    (parseDeparturesFromJson st json).wifiConnected = st.wifiConnected := by
  cases h : deserializeJson CAPACITY json with
  | error e => rw [parse_error st json e h]; rfl
  | ok doc => exact (parse_ok st json doc h).2.2.2

theorem poll_gate_iff_aux (readJson : List Nat → JsonText) (st : NetState) (inp : TickInput)
    (hwifi : inp.wifiStatusConnected = true) :
    (networkLoop readJson st inp).2.pastGate = true
      ↔ (30000 : Int) ≤ wrapDistance inp.millis st.lastApiPoll := by
  have hconst : ((API_POLL_INTERVAL_MS : Nat) : Int) = 30000 := by decide
  rw [← hconst, ← due_iff]
  rcases tick_cases readJson st inp with h | h | h
  · rw [hwifi] at h; exact absurd h.1 (by simp)
  · obtain ⟨_, hnd, heq⟩ := h
    rw [heq]; simp [TickExit.pastGate, hnd]
  · obtain ⟨_, hd, h | h | h⟩ := h
    · rw [h.2]; simp [TickExit.pastGate, hd]
    · rw [h.2.2]; simp [TickExit.pastGate, hd]
    · rw [h.2.2]; simp [TickExit.pastGate, hd]

/-- C5. In a tick with Wi-Fi connected, `networkLoop` goes on past the poll gate
if and only if `now - lastApiPoll`, taken modulo `2 ^ 32`, is at least 30000;
equality counts as due. -/
theorem poll_gate_iff (readJson : List Nat → JsonText) (st : NetState) (inp : TickInput)
    (hwifi : inp.wifiStatusConnected = true) :
    (networkLoop readJson st inp).2.pastGate = true
      ↔ (30000 : Int) ≤ wrapDistance inp.millis st.lastApiPoll :=
  poll_gate_iff_aux readJson st inp hwifi

/-- C6. For every prior store, a tick that is online and due ends with
`departureCount = 0` and every slot empty whenever the location is invalid or the
fetch reports failure; with an invalid location no fetch is attempted. -/
theorem failed_poll_clears (readJson : List Nat → JsonText) (st : NetState) (inp : TickInput)
    (hwifi : inp.wifiStatusConnected = true)
    (hdue : (30000 : Int) ≤ wrapDistance inp.millis st.lastApiPoll)
    (hfail : inp.location.valid = false ∨
      (performHttpsGet inp.connectOk inp.received).1 = false) :
    (networkLoop readJson st inp).1.departureCount = 0 ∧
    (∀ i : Fin MAX_DEPARTURES,
      IsEmptySlot ((networkLoop readJson st inp).1.departureBuffer i)) ∧
    (inp.location.valid = false →
      (networkLoop readJson st inp).2.fetchAttempted = false) := by
  have hconst : ((API_POLL_INTERVAL_MS : Nat) : Int) = 30000 := by decide
  rw [← hconst, ← due_iff] at hdue
  cases hloc : inp.location.valid with
  | false =>
    rw [tick_invalidLocation readJson st inp hwifi hdue hloc]
    exact ⟨rfl, isEmptySlot_clearDepartures _, fun _ => rfl⟩
  | true =>
    have hf : (performHttpsGet inp.connectOk inp.received).1 = false := by
      rcases hfail with h | h
      · rw [hloc] at h; exact absurd h (by simp)
      · exact h
    rw [tick_fetchFailed readJson st inp hwifi hdue hloc hf]
    exact ⟨rfl, isEmptySlot_clearDepartures _, fun h => absurd h (by simp)⟩

/-- C7. A tick in which Wi-Fi is not connected, or in which the poll is not yet
due, leaves `departureBuffer`, `departureCount` and `lastApiPoll` unchanged; after
an offline tick `networkIsOnline` is false, and after every tick `networkIsOnline`
equals whether the Wi-Fi status was connected in that tick. -/
theorem idle_tick_frame (readJson : List Nat → JsonText) (st : NetState) (inp : TickInput) :
    networkIsOnline (networkLoop readJson st inp).1 = inp.wifiStatusConnected ∧
    (inp.wifiStatusConnected = false →
      networkIsOnline (networkLoop readJson st inp).1 = false) ∧
    ((inp.wifiStatusConnected = false ∨ wrapDistance inp.millis st.lastApiPoll < 30000) →
      (networkLoop readJson st inp).1.departureBuffer = st.departureBuffer ∧
      (networkLoop readJson st inp).1.departureCount = st.departureCount ∧
      (networkLoop readJson st inp).1.lastApiPoll = st.lastApiPoll) := by
  have hconst : ((API_POLL_INTERVAL_MS : Nat) : Int) = 30000 := by decide
  have honline : networkIsOnline (networkLoop readJson st inp).1 = inp.wifiStatusConnected := by
    rcases tick_cases readJson st inp with h | h | h
    · rw [h.2, h.1]; rfl
    · rw [h.2.2, h.1]; rfl
    · obtain ⟨hw, _, h | h | h⟩ := h
      · rw [h.2, hw]; rfl
      · rw [h.2.2, hw]; rfl
      · rw [h.2.2, hw]; exact parse_wifiConnected _ _
  refine ⟨honline, fun h => by rw [honline, h], ?_⟩
  intro hidle
  rcases tick_cases readJson st inp with h | h | h
  · rw [h.2]; exact ⟨rfl, rfl, rfl⟩
  · rw [h.2.2]; exact ⟨rfl, rfl, rfl⟩
  · obtain ⟨hw, hd, _⟩ := h
    rcases hidle with h0 | h0
    · rw [hw] at h0; exact absurd h0 (by simp)
    · have := (due_iff inp.millis st.lastApiPoll).mp hd
      rw [hconst] at this
      omega

theorem storeInvariant_congr {st st' : NetState}
    (hb : st'.departureBuffer = st.departureBuffer)
    (hc : st'.departureCount = st.departureCount) (h : StoreInvariant st) :
    StoreInvariant st' := by
  unfold StoreInvariant networkGetDepartures at h ⊢
  simp only [hb, hc]
  exact h

theorem storeInvariant_clearDepartures (st : NetState) :
    StoreInvariant (clearDepartures st) := by
  unfold StoreInvariant networkGetDepartures
  refine ⟨Nat.zero_le _, fun i => ⟨?_, fun _ => isEmptySlot_clearDepartures st i⟩⟩
  intro h
  rw [clearDepartures_count] at h
  exact absurd h (Nat.not_lt_zero _)

theorem storeInvariant_parse (st : NetState) (json : JsonText) :
    StoreInvariant (parseDeparturesFromJson st json) := by
  cases h : deserializeJson CAPACITY json with
  | error e =>
    rw [parse_error st json e h]
    exact storeInvariant_clearDepartures st
  | ok doc =>
    obtain ⟨hc, hdec, hemp⟩ := parse_kept st json doc h
    unfold StoreInvariant networkGetDepartures
    simp only [hc]
    refine ⟨Nat.min_le_left _ _, fun i => ⟨?_, ?_⟩⟩
    · intro hi
      have hi2 : i.val < ((asArray doc).filter etaInRange).length :=
        lt_of_lt_of_le hi (Nat.min_le_right _ _)
      refine ⟨_, ?_, hdec i hi2⟩
      exact (List.mem_filter.mp (List.get_mem _ _ _)).2
    · intro hi
      apply hemp i
      have := i.isLt
      omega

theorem storeInvariant_tick (readJson : List Nat → JsonText) (st : NetState) (inp : TickInput)
    (h : StoreInvariant st) : StoreInvariant (networkLoop readJson st inp).1 := by
  rcases tick_cases readJson st inp with hc | hc | hc
  · rw [hc.2]; exact storeInvariant_congr rfl rfl h
  · rw [hc.2.2]; exact storeInvariant_congr rfl rfl h
  · obtain ⟨_, _, hc | hc | hc⟩ := hc
    · rw [hc.2]; exact storeInvariant_clearDepartures _
    · rw [hc.2.2]; exact storeInvariant_clearDepartures _
    · rw [hc.2.2]; exact storeInvariant_parse _ _

theorem storeInvariant_networkInit (st : NetState) : StoreInvariant (networkInit st) :=
  storeInvariant_congr rfl rfl (storeInvariant_clearDepartures st)

theorem storeInvariant_runTicks (readJson : List Nat → JsonText) (ticks : List TickInput) :
    ∀ st : NetState, StoreInvariant st → StoreInvariant (runTicks readJson st ticks) := by
  induction ticks with
  | nil => intro st h; exact h
  | cons inp rest ih =>
    intro st h
    exact ih _ (storeInvariant_tick readJson st inp h)

/-- C9. Store invariant: after `networkInit`, after every call of
`parseDeparturesFromJson`, after a `networkLoop` tick on any path and after any
sequence of ticks that follows `networkInit`, the count `networkGetDepartures`
returns is at most 8, every slot below the count holds the decoded form of an
accepted element and every slot from the count up to 7 is empty (empty line,
empty destination, `etaMinutes = 0`). -/
theorem store_invariant_maintained (readJson : List Nat → JsonText) :
    (∀ st : NetState, StoreInvariant (networkInit st)) ∧
    (∀ (st : NetState) (json : JsonText), StoreInvariant (parseDeparturesFromJson st json)) ∧
    (∀ (st : NetState) (inp : TickInput),
      StoreInvariant st → StoreInvariant (networkLoop readJson st inp).1) ∧
    (∀ (st : NetState) (ticks : List TickInput),
      StoreInvariant (runTicks readJson (networkInit st) ticks)) :=
  ⟨storeInvariant_networkInit, storeInvariant_parse, storeInvariant_tick readJson,
    fun st ticks => storeInvariant_runTicks readJson ticks _ (storeInvariant_networkInit st)⟩

theorem pastGate_sets_lastApiPoll (readJson : List Nat → JsonText) (st : NetState)
    (inp : TickInput) (h : (networkLoop readJson st inp).2.pastGate = true) :
    inp.wifiStatusConnected = true ∧
    ¬ subUL (inp.millis % ULONG_MOD) st.lastApiPoll < API_POLL_INTERVAL_MS ∧
    (networkLoop readJson st inp).1.lastApiPoll = inp.millis % ULONG_MOD := by
  rcases tick_cases readJson st inp with hc | hc | hc
  · rw [hc.2] at h; exact absurd h (by simp [TickExit.pastGate])
  · rw [hc.2.2] at h; exact absurd h (by simp [TickExit.pastGate])
  · obtain ⟨hw, hd, hc | hc | hc⟩ := hc
    · rw [hc.2]; exact ⟨hw, hd, rfl⟩
    · rw [hc.2.2]; exact ⟨hw, hd, rfl⟩
    · rw [hc.2.2]; exact ⟨hw, hd, parse_lastApiPoll _ _⟩

theorem not_pastGate_keeps_lastApiPoll (readJson : List Nat → JsonText) (st : NetState)
    (inp : TickInput) (h : (networkLoop readJson st inp).2.pastGate = false) :
    (networkLoop readJson st inp).1.lastApiPoll = st.lastApiPoll := by
  rcases tick_cases readJson st inp with hc | hc | hc
  · rw [hc.2]
  · rw [hc.2.2]
  · obtain ⟨_, _, hc | hc | hc⟩ := hc
    · rw [hc.2] at h; exact absurd h (by simp [TickExit.pastGate])
    · rw [hc.2.2] at h; exact absurd h (by simp [TickExit.pastGate])
    · rw [hc.2.2] at h; exact absurd h (by simp [TickExit.pastGate])

theorem fetchAttempted_pastGate {x : TickExit} (h : x.fetchAttempted = true) :
    x.pastGate = true := by
  cases x <;> simp [TickExit.fetchAttempted, TickExit.pastGate] at h ⊢

theorem lastDueTick_lastApiPoll (readJson : List Nat → JsonText) (ticks : List TickInput) :
    ∀ (st : NetState) (latest : Option Nat),
      (∀ t, latest = some t → st.lastApiPoll = t) →
      ∀ t0, lastDueTick readJson st ticks latest = some t0 →
        (runTicks readJson st ticks).lastApiPoll = t0 := by
  induction ticks with
  | nil =>
    intro st latest hinv t0 h
    exact hinv t0 h
  | cons inp rest ih =>
    intro st latest hinv t0 h
    simp only [lastDueTick] at h
    refine ih (networkLoop readJson st inp).1 _ ?_ t0 h
    intro t ht
    cases hp : (networkLoop readJson st inp).2.pastGate with
    | true =>
      rw [hp] at ht
      simp only [if_true, Option.some.injEq] at ht
      rw [← ht]
      exact (pastGate_sets_lastApiPoll readJson st inp hp).2.2
    | false =>
      rw [hp] at ht
      simp only [Bool.false_eq_true, if_false] at ht
      rw [not_pastGate_keeps_lastApiPoll readJson st inp hp]
      exact hinv t ht

/-- C8. Every online, due tick sets `lastApiPoll` to `now`, whatever its outcome;
and in any sequence of ticks that follows `networkInit`, a tick that attempts a
fetch is at a wraparound distance of at least 30000 ms from the latest earlier
tick that went past the poll gate. -/
theorem poll_marked_and_spaced (readJson : List Nat → JsonText) :
    (∀ (st : NetState) (inp : TickInput),
      inp.wifiStatusConnected = true →
      (30000 : Int) ≤ wrapDistance inp.millis st.lastApiPoll →
      (networkLoop readJson st inp).1.lastApiPoll = inp.millis % ULONG_MOD) ∧
    (∀ (st : NetState) (ticks : List TickInput) (inp : TickInput) (t0 : Nat),
      lastDueTick readJson (networkInit st) ticks none = some t0 →
      (networkLoop readJson (runTicks readJson (networkInit st) ticks) inp).2.fetchAttempted
        = true →
      (30000 : Int) ≤ wrapDistance inp.millis t0) := by
  have hconst : ((API_POLL_INTERVAL_MS : Nat) : Int) = 30000 := by decide
  constructor
  · intro st inp hw hdue
    have hp := (poll_gate_iff_aux readJson st inp hw).mpr hdue
    exact (pastGate_sets_lastApiPoll readJson st inp hp).2.2
  · intro st ticks inp t0 hlast hfetch
    have hpoll := lastDueTick_lastApiPoll readJson ticks (networkInit st) none
      (fun t ht => absurd ht (by simp)) t0 hlast
    obtain ⟨_, hd, _⟩ := pastGate_sets_lastApiPoll readJson _ inp
      (fetchAttempted_pastGate hfetch)
    rw [hpoll] at hd
    have := (due_iff inp.millis t0).mp hd
    rw [hconst] at this
    exact this

/-! ## The fetch -/

theorem matchesAt_iff (pat : List Nat) : ∀ s : List Nat,
    matchesAt pat s = true ↔ ∃ t, s = pat ++ t := by
  induction pat with
  | nil => intro s; simp [matchesAt]
  | cons p ps ih =>
    intro s
    cases s with
    | nil => simp [matchesAt]
    | cons c cs =>
      simp only [matchesAt, Bool.and_eq_true, beq_iff_eq, ih cs, List.cons_append,
        List.cons.injEq]
      constructor
      · rintro ⟨hpc, t, ht⟩
        exact ⟨t, hpc.symm, ht⟩
      · rintro ⟨t, hpc, ht⟩
        exact ⟨hpc.symm, t, ht⟩

/-- Either `pat` does not occur in `s` and the search gives `-1`, or the search
gives the offset of the first occurrence. -/
theorem indexOfFrom_spec (pat : List Nat) (hpat : pat ≠ []) : ∀ (s : List Nat) (pos : Nat),
    (indexOfFrom pat s pos = -1 ∧ ∀ pre post, s ≠ pre ++ pat ++ post) ∨
    (∃ pre post, s = pre ++ pat ++ post ∧ indexOfFrom pat s pos = ((pos + pre.length : Nat) : Int) ∧
      ∀ pre2 post2, s = pre2 ++ pat ++ post2 → pre.length ≤ pre2.length) := by
  intro s
  induction s with
  | nil =>
    intro pos
    left
    refine ⟨rfl, ?_⟩
    intro pre post h
    have hlen := congrArg List.length h
    simp only [List.length_nil, List.length_append] at hlen
    have : 0 < pat.length := List.length_pos.mpr hpat
    omega
  | cons c cs ih =>
    intro pos
    by_cases hm : matchesAt pat (c :: cs) = true
    · right
      obtain ⟨t, ht⟩ := (matchesAt_iff pat (c :: cs)).mp hm
      refine ⟨[], t, by simpa using ht, ?_, fun _ _ _ => Nat.zero_le _⟩
      simp [indexOfFrom, hm]
    · have hstep : indexOfFrom pat (c :: cs) pos = indexOfFrom pat cs (pos + 1) := by
        simp [indexOfFrom, hm]
      have hhead : ∀ pre post, c :: cs = pre ++ pat ++ post → ∃ pre2, pre = c :: pre2 ∧
          cs = pre2 ++ pat ++ post := by
        intro pre post h
        cases pre with
        | nil =>
          exfalso
          apply hm
          exact (matchesAt_iff pat (c :: cs)).mpr ⟨post, by simpa using h⟩
        | cons a pre2 =>
          simp only [List.cons_append, List.cons.injEq] at h
          exact ⟨pre2, by rw [h.1], h.2⟩
      rcases ih (pos + 1) with ⟨hnone, hno⟩ | ⟨pre, post, hs, hidx, hmin⟩
      · left
        refine ⟨by rw [hstep, hnone], ?_⟩
        intro pre post h
        obtain ⟨pre2, _, hcs⟩ := hhead pre post h
        exact hno pre2 post hcs
      · right
        refine ⟨c :: pre, post, by simp [hs], ?_, ?_⟩
        · rw [hstep, hidx]
          simp only [List.length_cons]
          congr 1
          omega
        · intro pre2 post2 h
          obtain ⟨pre3, hpre, hcs⟩ := hhead pre2 post2 h
          rw [hpre]
          simp only [List.length_cons]
          exact Nat.succ_le_succ (hmin pre3 post2 hcs)

/-- Two splittings of a text at the pattern with fronts of equal length agree. -/
theorem split_unique {pat s pre post pre2 post2 : List Nat}
    (h1 : s = pre ++ pat ++ post) (h2 : s = pre2 ++ pat ++ post2)
    (hlen : pre.length = pre2.length) : post = post2 := by
  rw [h1, List.append_assoc, List.append_assoc] at h2
  have hpre := List.append_inj_left h2 hlen
  subst hpre
  have h3 := List.append_cancel_left h2
  exact List.append_cancel_left h3

/-- What `performHttpsGet` returns after a successful connect: when the received
text contains `"\r\n\r\n"`, the text that follows its first occurrence; when it
does not, the received text itself.  In both cases the call reports failure if
and only if the connection could not be established or the returned text is
empty. -/
theorem fetch_strips_header_when_present (connectOk : Bool) (raw : List Nat) :
    ((performHttpsGet connectOk raw).1 = false
      ↔ (connectOk = false ∨ (performHttpsGet connectOk raw).2 = [])) ∧
    (connectOk = true →
      ∀ pre body, raw = pre ++ HEADER_END ++ body →
        (∀ pre2 body2, raw = pre2 ++ HEADER_END ++ body2 → pre.length ≤ pre2.length) →
        (performHttpsGet connectOk raw).2 = body) ∧
    (connectOk = true →
      (∀ pre body, raw ≠ pre ++ HEADER_END ++ body) →
      (performHttpsGet connectOk raw).2 = raw) := by
  cases connectOk with
  | false =>
    refine ⟨?_, fun h => absurd h (by simp), fun h => absurd h (by simp)⟩
    simp [performHttpsGet]
  | true =>
    have hpat : HEADER_END ≠ [] := by decide
    have hres : performHttpsGet true raw =
        (!(if indexOf raw HEADER_END ≥ 0 then substring raw (indexOf raw HEADER_END + 4)
            else raw).isEmpty,
          if indexOf raw HEADER_END ≥ 0 then substring raw (indexOf raw HEADER_END + 4)
            else raw) := by
      simp [performHttpsGet, API_USE_TLS]
    refine ⟨?_, fun _ => ?_, fun _ => ?_⟩
    · rw [hres]
      simp [List.isEmpty_iff]
    · intro pre body hsplit hfirst
      rw [hres]
      rcases indexOfFrom_spec HEADER_END hpat raw 0 with ⟨_, hno⟩ | ⟨p, q, hs, hidx, hmin⟩
      · exact absurd hsplit (hno pre body)
      · have hlen : p.length = pre.length :=
          Nat.le_antisymm (hmin pre body hsplit) (hfirst p q hs)
        have hq : q = body := split_unique hs hsplit hlen
        have hi : indexOf raw HEADER_END = (p.length : Int) := by
          unfold indexOf; rw [hidx]; simp
        rw [hi]
        have hnn : ((p.length : Int) ≥ 0) := Int.natCast_nonneg _
        simp only [hnn, if_true, substring]
        have h4 : ((p.length : Int) + 4).toNat = p.length + HEADER_END.length := by
          simp [HEADER_END]; omega
        rw [h4, hs, ← hq, ← List.length_append]
        exact List.drop_left _ _
    · intro hno
      rw [hres]
      rcases indexOfFrom_spec HEADER_END hpat raw 0 with ⟨hnone, _⟩ | ⟨p, q, hs, _, _⟩
      · have hi : indexOf raw HEADER_END = -1 := hnone
        rw [hi]
        simp
      · exact absurd hs (hno p q)

/-! ## Instances at concrete inputs -/

/-- Witness of C2 (amended) at nine elements: the first eight are stored. -/
theorem parse_wellFormed_beyond_capacity_witness :
    (deserializeJson CAPACITY (JsonText.value (JsonVariant.array nineElements))
        = Except.ok (JsonVariant.array nineElements) ∧
      MAX_DEPARTURES < nineElements.length ∧
      (∀ e ∈ nineElements, wellFormed e = true)) ∧
    ((parseDeparturesFromJson loadedState
        (JsonText.value (JsonVariant.array nineElements))).departureCount = MAX_DEPARTURES ∧
      ∀ i : Fin MAX_DEPARTURES,
        HoldsElement
          ((parseDeparturesFromJson loadedState
            (JsonText.value (JsonVariant.array nineElements))).departureBuffer i)
          (nineElements.get ⟨i.val, Nat.lt_trans i.isLt (by decide)⟩)) :=
  ⟨⟨rfl, by decide, by decide⟩,
    parse_wellFormed_beyond_capacity loadedState
      (JsonText.value (JsonVariant.array nineElements)) nineElements rfl (by decide)
      (by decide)⟩

/-- Witness of C3: of seven elements only the first and the last carry an
integer `eta_min` in `[0, 255]`; they take slots 0 and 1. -/
theorem parse_skips_rejected_eta_witness :
    deserializeJson CAPACITY (JsonText.value (JsonVariant.array mixedElements))
        = Except.ok (JsonVariant.array mixedElements) ∧
    mixedElements.filter etaInRange
        = [departureObject "M4" "Hackescher Markt" 3, departureObject "M5" "Hauptbahnhof" 8] ∧
    ((parseDeparturesFromJson loadedState
        (JsonText.value (JsonVariant.array mixedElements))).departureCount
        = min MAX_DEPARTURES (mixedElements.filter etaInRange).length ∧
      (∀ (i : Fin MAX_DEPARTURES) (hi : i.val < (mixedElements.filter etaInRange).length),
        HoldsDecoded
          ((parseDeparturesFromJson loadedState
            (JsonText.value (JsonVariant.array mixedElements))).departureBuffer i)
          ((mixedElements.filter etaInRange).get ⟨i.val, hi⟩)) ∧
      (∀ i : Fin MAX_DEPARTURES, (mixedElements.filter etaInRange).length ≤ i.val →
        IsEmptySlot
          ((parseDeparturesFromJson loadedState
            (JsonText.value (JsonVariant.array mixedElements))).departureBuffer i))) ∧
    (parseDeparturesFromJson loadedState
        (JsonText.value (JsonVariant.array mixedElements))).departureCount = 2 :=
  ⟨rfl, rfl,
    parse_skips_rejected_eta loadedState (JsonText.value (JsonVariant.array mixedElements))
      mixedElements rfl,
    by decide⟩

set_option maxRecDepth 100000

/-- Witness of C4 (amended): the empty string, the example body cut off inside its
second element, and an array with a missing colon, which the reader rejects,
each met by a store that holds two entries. -/
theorem parse_failure_clears_witness :
    (loadedState.departureCount = 2 ∧
      (readJsonText []).errorCode? = some DeserializationError.EmptyInput ∧
      (readJsonText truncatedBody).errorCode? = some DeserializationError.IncompleteInput ∧
      (readJsonText malformedBody).errorCode? = some DeserializationError.InvalidInput ∧
      CLOSE_BRACKET ∉ ([] : List Nat) ∧
      CLOSE_BRACKET ∉ truncatedBody) ∧
    ((parseDeparturesFromJson loadedState (readJsonText [])).departureCount = 0 ∧
      ∀ i : Fin MAX_DEPARTURES,
        IsEmptySlot
          ((parseDeparturesFromJson loadedState (readJsonText [])).departureBuffer i)) ∧
    ((parseDeparturesFromJson loadedState (readJsonText truncatedBody)).departureCount = 0 ∧
      ∀ i : Fin MAX_DEPARTURES,
        IsEmptySlot
          ((parseDeparturesFromJson loadedState
            (readJsonText truncatedBody)).departureBuffer i)) ∧
    ((parseDeparturesFromJson loadedState (readJsonText malformedBody)).departureCount = 0 ∧
      ∀ i : Fin MAX_DEPARTURES,
        IsEmptySlot
          ((parseDeparturesFromJson loadedState
            (readJsonText malformedBody)).departureBuffer i)) :=
  ⟨⟨by decide, by decide, by decide, by decide, by decide, by decide⟩,
    (parse_failure_clears loadedState).2 [] (by decide),
    (parse_failure_clears loadedState).2 truncatedBody (by decide),
    (parse_failure_clears loadedState).1 (readJsonText malformedBody)
      DeserializationError.InvalidInput (deserializeJson_rejected (by decide))⟩

/-- Counterexample to C4 as stated: the example array followed by trailing
garbage is read as the array, since the reader stops at the closing bracket; no
error is reported and both elements are stored. -/
theorem trailing_garbage_after_array_is_decoded :
    trailingGarbageBody = exampleBody ++ ascii " trailing garbage" ∧
    (readJsonText trailingGarbageBody).errorCode? = none ∧
    (parseDeparturesFromJson emptyState (readJsonText trailingGarbageBody)).departureCount = 2 ∧
    (parseDeparturesFromJson emptyState (readJsonText trailingGarbageBody)).departureCount ≠ 0 ∧
    arrayString ((parseDeparturesFromJson emptyState
      (readJsonText trailingGarbageBody)).departureBuffer 1).destination
        = ascii "Hauptbahnhof" :=
  ⟨rfl, by decide, by decide, by decide, by decide⟩

/-- Witness of C5. With `lastApiPoll = 0` a tick at 29999 is not due and a tick at
30000 is due; with `lastApiPoll = 2 ^ 32 - 10000` a tick at 19999, after the clock
has wrapped, is not due and a tick at 20000 is due. -/
theorem poll_gate_iff_witness :
    (tickWithoutFix 30000).wifiStatusConnected = true ∧
    ((networkLoop exampleReader emptyState (tickWithoutFix 30000)).2.pastGate = true
      ↔ (30000 : Int) ≤ wrapDistance (tickWithoutFix 30000).millis emptyState.lastApiPoll) ∧
    (networkLoop exampleReader emptyState (tickWithoutFix 29999)).2 = TickExit.notDue ∧
    (networkLoop exampleReader emptyState (tickWithoutFix 30000)).2.pastGate = true ∧
    (networkLoop exampleReader { emptyState with lastApiPoll := 2 ^ 32 - 10000 }
      (tickWithoutFix 19999)).2 = TickExit.notDue ∧
    (networkLoop exampleReader { emptyState with lastApiPoll := 2 ^ 32 - 10000 }
      (tickWithoutFix 20000)).2.pastGate = true :=
  ⟨rfl, poll_gate_iff exampleReader emptyState (tickWithoutFix 30000) rfl,
    by decide, by decide, by decide, by decide⟩

/-- Witness of C6: an online, due tick without a fix met by a store that holds
two entries. -/
theorem failed_poll_clears_witness :
    (loadedState.departureCount = 2 ∧
      (tickWithoutFix 30000).wifiStatusConnected = true ∧
      (30000 : Int) ≤ wrapDistance (tickWithoutFix 30000).millis loadedState.lastApiPoll ∧
      (tickWithoutFix 30000).location.valid = false) ∧
    ((networkLoop exampleReader loadedState (tickWithoutFix 30000)).1.departureCount = 0 ∧
      (∀ i : Fin MAX_DEPARTURES,
        IsEmptySlot
          ((networkLoop exampleReader loadedState (tickWithoutFix 30000)).1.departureBuffer i)) ∧
      ((tickWithoutFix 30000).location.valid = false →
        (networkLoop exampleReader loadedState (tickWithoutFix 30000)).2.fetchAttempted
          = false)) :=
  ⟨⟨by decide, rfl, by decide, rfl⟩,
    failed_poll_clears exampleReader loadedState (tickWithoutFix 30000) rfl (by decide)
      (Or.inl rfl)⟩

/-- Witness of C7: an offline tick and a tick that is not yet due, both met by a
store that holds two entries. -/
theorem idle_tick_frame_witness :
    ((tickOffline 30000).wifiStatusConnected = false ∧
      wrapDistance (tickWithResponse 29999).millis loadedState.lastApiPoll < 30000) ∧
    ((networkLoop exampleReader loadedState (tickOffline 30000)).1.departureBuffer
        = loadedState.departureBuffer ∧
      (networkLoop exampleReader loadedState (tickOffline 30000)).1.departureCount
        = loadedState.departureCount ∧
      (networkLoop exampleReader loadedState (tickOffline 30000)).1.lastApiPoll
        = loadedState.lastApiPoll) ∧
    ((networkLoop exampleReader loadedState (tickWithResponse 29999)).1.departureBuffer
        = loadedState.departureBuffer ∧
      (networkLoop exampleReader loadedState (tickWithResponse 29999)).1.departureCount
        = loadedState.departureCount ∧
      (networkLoop exampleReader loadedState (tickWithResponse 29999)).1.lastApiPoll
        = loadedState.lastApiPoll) ∧
    networkIsOnline (networkLoop exampleReader loadedState (tickOffline 30000)).1 = false :=
  ⟨⟨rfl, by decide⟩,
    (idle_tick_frame exampleReader loadedState (tickOffline 30000)).2.2 (Or.inl rfl),
    (idle_tick_frame exampleReader loadedState (tickWithResponse 29999)).2.2
      (Or.inr (by decide)),
    (idle_tick_frame exampleReader loadedState (tickOffline 30000)).2.1 rfl⟩

/-- Witness of C8: after `networkInit` a first poll at 30000 and an offline tick;
the tick at 60000 attempts the next fetch, 30000 ms after the first. -/
theorem poll_marked_and_spaced_witness :
    (lastDueTick exampleReader (networkInit emptyState)
        [tickWithResponse 30000, tickOffline 45000] none = some 30000 ∧
      (networkLoop exampleReader
        (runTicks exampleReader (networkInit emptyState)
          [tickWithResponse 30000, tickOffline 45000])
        (tickWithResponse 60000)).2.fetchAttempted = true ∧
      (networkLoop exampleReader
        (runTicks exampleReader (networkInit emptyState)
          [tickWithResponse 30000, tickOffline 45000])
        (tickWithResponse 59999)).2.fetchAttempted = false) ∧
    (30000 : Int) ≤ wrapDistance (tickWithResponse 60000).millis 30000 :=
  ⟨⟨by decide, by decide, by decide⟩,
    (poll_marked_and_spaced exampleReader).2 emptyState
      [tickWithResponse 30000, tickOffline 45000] (tickWithResponse 60000) 30000
      (by decide) (by decide)⟩

/-- End-to-end scenario C: an online, due tick with a valid fix whose fetch
returns the example body ends with the two example entries in the store. -/
theorem tick_decodes_example_response :
    performHttpsGet true exampleResponse = (true, exampleBody) ∧
    (networkLoop exampleReader emptyState (tickWithResponse 30000)).2 = TickExit.parsed ∧
    (networkLoop exampleReader emptyState (tickWithResponse 30000)).1.departureCount = 2 ∧
    arrayString ((networkLoop exampleReader emptyState
      (tickWithResponse 30000)).1.departureBuffer 0).line = ascii "M4" ∧
    arrayString ((networkLoop exampleReader emptyState
      (tickWithResponse 30000)).1.departureBuffer 1).destination = ascii "Hauptbahnhof" ∧
    ((networkLoop exampleReader emptyState
      (tickWithResponse 30000)).1.departureBuffer 1).etaMinutes = 8 := by
  decide

/-- C10 (failing input). For a response cut off inside its header block, which
holds no `"\r\n\r\n"`, `performHttpsGet` reports success and returns the received
text whole, header bytes included: the returned body is not the received text
with a front ending in `"\r\n\r\n"` removed, as the claim and the documentation
of the function ("the response body (without headers)") have it. -/
theorem headerless_response_returned_whole :
    performHttpsGet true truncatedResponse = (true, truncatedResponse) ∧
    ¬ ∃ front : List Nat,
      truncatedResponse = front ++ HEADER_END ++ (performHttpsGet true truncatedResponse).2 := by
  have h : performHttpsGet true truncatedResponse = (true, truncatedResponse) := by decide
  refine ⟨h, ?_⟩
  rintro ⟨front, hfront⟩
  rw [h] at hfront
  have hlen := congrArg List.length hfront
  simp only [List.length_append] at hlen
  have h4 : HEADER_END.length = 4 := rfl
  omega

theorem slotCountList_rows (rows : List (List Nat × List Nat × Int)) :
    slotCountList (rows.map (fun r => departureObjectOf r.1 r.2.1 r.2.2)) = 4 * rows.length := by
  induction rows with
  | nil => simp [slotCountList]
  | cons r rest ih =>
    simp only [departureObjectOf] at ih
    simp only [List.map_cons, slotCountList, ih, departureObjectOf, slotCount,
      slotCountMembers, List.length_cons]
    omega

theorem stringBytesList_rows (rows : List (List Nat × List Nat × Int))
    (h : ∀ r ∈ rows, (cstr r.1).length ≤ 7 ∧ (cstr r.2.1).length ≤ 39) :
    stringBytesList (rows.map (fun r => departureObjectOf r.1 r.2.1 r.2.2))
      ≤ 73 * rows.length := by
  induction rows with
  | nil => simp [stringBytesList]
  | cons r rest ih =>
    have hr := h r (by simp)
    have hrest := ih (fun x hx => h x (by simp [hx]))
    have k1 : ("line" : String).utf8ByteSize = 4 := by decide
    have k2 : ("destination" : String).utf8ByteSize = 11 := by decide
    have k3 : ("eta_min" : String).utf8ByteSize = 7 := by decide
    simp only [departureObjectOf] at hrest
    simp only [List.map_cons, stringBytesList, departureObjectOf, stringBytes,
      stringBytesMembers, List.length_cons, k1, k2, k3]
    omega

/-- An array of at most 8 objects that carry just a `line` of at most 7
characters, a `destination` of at most 39 characters and an `eta_min` fits the
document budget of `parseDeparturesFromJson`. -/
theorem three_member_array_fits (rows : List (List Nat × List Nat × Int))
    (hlen : rows.length ≤ MAX_DEPARTURES)
    (h : ∀ r ∈ rows, (cstr r.1).length ≤ 7 ∧ (cstr r.2.1).length ≤ 39) :
    deserializeJson CAPACITY
        (JsonText.value (JsonVariant.array (rows.map (fun r => departureObjectOf r.1 r.2.1 r.2.2))))
      = Except.ok (JsonVariant.array (rows.map (fun r => departureObjectOf r.1 r.2.1 r.2.2))) := by
  have hs := slotCountList_rows rows
  have hb := stringBytesList_rows rows h
  have hfit : memoryUsage
      (JsonVariant.array (rows.map (fun r => departureObjectOf r.1 r.2.1 r.2.2))) ≤ CAPACITY := by
    simp only [memoryUsage, slotCount, stringBytes, hs, CAPACITY, JSON_ARRAY_SIZE,
      JSON_OBJECT_SIZE, SIZEOF_VARIANT_SLOT]
    have : rows.length ≤ 8 := hlen
    omega
  simp only [deserializeJson, hfit, if_true]

/-- The header block of the example response is cut off at its first
`"\r\n\r\n"` and the example body is returned. -/
theorem fetch_strips_header_when_present_witness :
    exampleResponse
      = ascii "HTTP/1.1 200 OK\r\nContent-Type: application/json" ++ HEADER_END ++ exampleBody ∧
    (performHttpsGet true exampleResponse).2 = exampleBody ∧
    ((performHttpsGet true exampleResponse).1 = false
      ↔ (true = false ∨ (performHttpsGet true exampleResponse).2 = [])) ∧
    (performHttpsGet true truncatedResponse).2 = truncatedResponse := by
  have hpat : HEADER_END ≠ [] := by decide
  have hsplit : exampleResponse
      = ascii "HTTP/1.1 200 OK\r\nContent-Type: application/json" ++ HEADER_END ++ exampleBody :=
    rfl
  have hfirst : ∀ pre2 body2, exampleResponse = pre2 ++ HEADER_END ++ body2 →
      (ascii "HTTP/1.1 200 OK\r\nContent-Type: application/json").length ≤ pre2.length := by
    rcases indexOfFrom_spec HEADER_END hpat exampleResponse 0 with ⟨_, hno⟩ | ⟨p, q, hs, hidx, hmin⟩
    · exact absurd hsplit (hno _ _)
    · have hval : indexOfFrom HEADER_END exampleResponse 0 = 47 := by decide
      have hp : p.length = 47 := by
        rw [hval] at hidx
        have : ((47 : Nat) : Int) = ((0 + p.length : Nat) : Int) := hidx
        omega
      intro pre2 body2 h2
      have := hmin pre2 body2 h2
      have hl : (ascii "HTTP/1.1 200 OK\r\nContent-Type: application/json").length = 47 := by
        decide
      omega
  have hnone : ∀ pre body, truncatedResponse ≠ pre ++ HEADER_END ++ body := by
    rcases indexOfFrom_spec HEADER_END hpat truncatedResponse 0 with ⟨_, hno⟩ | ⟨p, q, _, hidx, _⟩
    · exact hno
    · have hval : indexOfFrom HEADER_END truncatedResponse 0 = -1 := by decide
      rw [hval] at hidx
      omega
  exact ⟨hsplit,
    (fetch_strips_header_when_present true exampleResponse).2.1 rfl _ _ hsplit hfirst,
    (fetch_strips_header_when_present true exampleResponse).1,
    (fetch_strips_header_when_present true truncatedResponse).2.2 rfl hnone⟩

end TramTracker
